import Mathlib

/-
Verification development for the Unleashed API proxy (src/function_app.py).

Shallow embedding notes:
- Query strings, URLs and headers are Lean `String`s (the proxy only works
  with the raw query string, never a parsed mapping, so we do the same).
- Durations are measured in twentieths of a second as `Int` (all constants in
  the source - 570 s, 60 s, 480 s, 420 s, the 0.05/0.1/0.2/0.5 s sleeps and
  the 1.0/3.0 s thresholds - are exactly representable; the only division,
  `avg_api_time = total_api_time / page_number`, is compared against a bound
  `c`, which we express exactly as `total_api_time < c * page_number`, valid
  since `page_number >= 1`).
- The upstream API is an oracle `Upstream`: for each page number it yields the
  HTTP outcome (timeout / response with status, raw text, parsed JSON) and the
  duration the request took.  JSON numbers are modelled as `Int`.
- `requests.get` calls are recorded in an output log of `Req` records (url and
  api-auth-signature header actually used), in order of issue.
- The `Performance` sub-dictionaries of the result bodies (string-formatted
  timings, not inspected by any claim) are omitted from the result model.
-/

namespace UnleashedProxy

/-! ## Character-list string utilities (Python `in`, `split`, `join`, `startswith`) -/

/-- Python `pat in s` substring test, on char lists. -/
def containsSubList : List Char → List Char → Bool
  | [], pat => pat.isEmpty
  | c :: rest, pat => pat.isPrefixOf (c :: rest) || containsSubList rest pat

/-- Python `pat in s` substring test on strings. -/
def containsSub (s pat : String) : Bool := containsSubList s.data pat.data

/-- Python `s.split(sep)` for a one-character separator, on char lists. -/
def splitCh (sep : Char) : List Char → List (List Char)
  | [] => [[]]
  | c :: rest =>
    if c = sep then [] :: splitCh sep rest
    else
      match splitCh sep rest with
      | [] => [[c]]
      | g :: gs => (c :: g) :: gs

/-- Python `sep.join(groups)` for a one-character separator, on char lists. -/
def joinCh (sep : Char) : List (List Char) → List Char
  | [] => []
  | [g] => g
  | g :: gs => g ++ sep :: joinCh sep gs

/-- Python `query_string.split('&')`. -/
def paramsOf (s : String) : List String := (splitCh '&' s.data).map (fun l => String.mk l)

/-- Python `'&'.join(params)`. -/
def joinParams (ps : List String) : String := String.mk (joinCh '&' (ps.map String.data))

/-- Python `param.split('=')[1]` (second component of the split; total, defaulting to ""). -/
def valueOf (p : String) : String := String.mk ((splitCh '=' p.data).getD 1 [])

/-- The `key` of each `key=value` parameter of a query string, in order. -/
def keysOfQuery (q : String) : List String :=
  (splitCh '&' q.data).map (fun g => String.mk (g.takeWhile (fun c => c ≠ '=')))

/-- The part of a URL after the first `?` (re-derives the query string of a sent request). -/
def extractQuery (url : String) : String :=
  String.mk ((url.data.dropWhile (fun c => c ≠ '?')).drop 1)

/-- Python `s.startswith(pre)`. -/
def startsWithStr (s pre : String) : Bool := pre.data.isPrefixOf s.data

/-- Lexicographic comparison of char lists (Python `<=` on `str`, by code point). -/
def charsLe : List Char → List Char → Bool
  | [], _ => true
  | _ :: _, [] => false
  | a :: as, b :: bs => if a = b then charsLe as bs else decide (a < b)

/-- Lexicographic `<=` on strings, by code point. -/
def strLe (a b : String) : Bool := charsLe a.data b.data

/-- A Boolean check that a list of strings is sorted lexicographically. -/
def chainLe : List String → Bool
  | [] => true
  | [_] => true
  | a :: b :: rest => strLe a b && chainLe (b :: rest)

/-- Python `str(n)` for an integer. -/
def intStr (n : Int) : String := Int.repr n

/-! ## The Signer: HMAC-SHA256 and base64 (`generate_signature`) -/

/-- UTF-8 encoding of one character as bytes. -/
def utf8Char (c : Char) : List Nat :=
  let n := c.toNat
  if n < 128 then [n]
  else if n < 2048 then [192 + n / 64, 128 + n % 64]
  else if n < 65536 then [224 + n / 4096, 128 + (n / 64) % 64, 128 + n % 64]
  else [240 + n / 262144, 128 + (n / 4096) % 64, 128 + (n / 64) % 64, 128 + n % 64]

/-- UTF-8 encoding of a string as bytes (Python `s.encode('utf-8')`). -/
def utf8Bytes (s : String) : List Nat := s.data.flatMap utf8Char

/-- Truncation to a 32-bit word. -/
def w32 (n : Nat) : Nat := n % 4294967296

/-- 32-bit right rotation. -/
def rotr32 (x n : Nat) : Nat := w32 ((x >>> n) ||| (x <<< (32 - n)))

def bsig0 (x : Nat) : Nat := (rotr32 x 2) ^^^ (rotr32 x 13) ^^^ (rotr32 x 22)
def bsig1 (x : Nat) : Nat := (rotr32 x 6) ^^^ (rotr32 x 11) ^^^ (rotr32 x 25)
def ssig0 (x : Nat) : Nat := (rotr32 x 7) ^^^ (rotr32 x 18) ^^^ (x >>> 3)
def ssig1 (x : Nat) : Nat := (rotr32 x 17) ^^^ (rotr32 x 19) ^^^ (x >>> 10)

/-- The SHA-256 round constants (the 64 words of FIPS 180-4, in decimal). -/
def sha256K : List Nat :=
  [1116352408, 1899447441, 3049323471, 3921009573, 961987163, 1508970993,
   2453635748, 2870763221, 3624381080, 310598401, 607225278, 1426881987,
   1925078388, 2162078206, 2614888103, 3248222580, 3835390401, 4022224774,
   264347078, 604807628, 770255983, 1249150122, 1555081692, 1996064986,
   2554220882, 2821834349, 2952996808, 3210313671, 3336571891, 3584528711,
   113926993, 338241895, 666307205, 773529912, 1294757372, 1396182291,
   1695183700, 1986661051, 2177026350, 2456956037, 2730485921, 2820302411,
   3259730800, 3345764771, 3516065817, 3600352804, 4094571909, 275423344,
   430227734, 506948616, 659060556, 883997877, 958139571, 1322822218,
   1537002063, 1747873779, 1955562222, 2024104815, 2227730452, 2361852424,
   2428436474, 2756734187, 3204031479, 3329325298]

/-- The SHA-256 initial hash value (FIPS 180-4, in decimal). -/
def sha256Init : List Nat :=
  [1779033703, 3144134277, 1013904242, 2773480762, 1359893119, 2600822924,
   528734635, 1541459225]

/-- Big-endian packing of bytes into 32-bit words. -/
def bytesToWords : List Nat → List Nat
  | a :: b :: c :: d :: rest => (a * 16777216 + b * 65536 + c * 256 + d) :: bytesToWords rest
  | _ => []

/-- Message-schedule extension: appends `k` further words. -/
def extendW : Nat → List Nat → List Nat
  | 0, w => w
  | k + 1, w =>
    let t := w.length
    extendW k (w ++ [w32 (ssig1 (w.getD (t - 2) 0) + w.getD (t - 7) 0 +
                          ssig0 (w.getD (t - 15) 0) + w.getD (t - 16) 0)])

/-- One SHA-256 round. -/
def roundStep (st : Nat × Nat × Nat × Nat × Nat × Nat × Nat × Nat) (kw : Nat × Nat) :
    Nat × Nat × Nat × Nat × Nat × Nat × Nat × Nat :=
  let (a, b, c, d, e, f, g, h) := st
  let (k, w) := kw
  let ch := (e &&& f) ^^^ ((4294967295 ^^^ e) &&& g)
  let maj := (a &&& b) ^^^ (a &&& c) ^^^ (b &&& c)
  let t1 := w32 (h + bsig1 e + ch + k + w)
  let t2 := w32 (bsig0 a + maj)
  (w32 (t1 + t2), a, b, c, w32 (d + t1), e, f, g)

/-- SHA-256 compression of one 64-byte block into the running hash. -/
def sha256Block (h : List Nat) (block : List Nat) : List Nat :=
  let w := extendW 48 (bytesToWords block)
  let st0 := (h.getD 0 0, h.getD 1 0, h.getD 2 0, h.getD 3 0,
              h.getD 4 0, h.getD 5 0, h.getD 6 0, h.getD 7 0)
  let (a, b, c, d, e, f, g, hh) := (sha256K.zip w).foldl roundStep st0
  [w32 (h.getD 0 0 + a), w32 (h.getD 1 0 + b), w32 (h.getD 2 0 + c), w32 (h.getD 3 0 + d),
   w32 (h.getD 4 0 + e), w32 (h.getD 5 0 + f), w32 (h.getD 6 0 + g), w32 (h.getD 7 0 + hh)]

/-- SHA-256 padding: `0x80`, zeros, then the 64-bit big-endian bit length. -/
def sha256Pad (m : List Nat) : List Nat :=
  let L := m.length
  let k := (119 - L % 64) % 64
  m ++ 128 :: List.replicate k 0 ++ (List.range 8).map (fun i => ((8 * L) >>> (8 * (7 - i))) % 256)

/-- Splitting into 64-byte blocks (fuelled; called with fuel = length). -/
def blocksOf : Nat → List Nat → List (List Nat)
  | 0, _ => []
  | _ + 1, [] => []
  | fuel + 1, l => l.take 64 :: blocksOf fuel (l.drop 64)

/-- SHA-256 of a byte list. -/
def sha256 (m : List Nat) : List Nat :=
  let p := sha256Pad m
  let hs := (blocksOf p.length p).foldl sha256Block sha256Init
  hs.flatMap (fun w => (List.range 4).map (fun i => (w >>> (8 * (3 - i))) % 256))

/-- HMAC-SHA256 with a 64-byte block size. -/
def hmacSha256 (key msg : List Nat) : List Nat :=
  let k0 := if 64 < key.length then sha256 key else key
  let k1 := k0 ++ List.replicate (64 - k0.length) 0
  sha256 ((k1.map (fun b => b ^^^ 92)) ++ sha256 ((k1.map (fun b => b ^^^ 54)) ++ msg))

/-- The base64 alphabet. -/
def b64Chars : List Char :=
  "ABCDEFGHIJKLMNOPQRSTUVWXYZabcdefghijklmnopqrstuvwxyz0123456789+/".data

def b64c (n : Nat) : Char := b64Chars.getD n 'A'

/-- Base64 encoding of a byte list, three bytes at a time. -/
def b64chunks : List Nat → List Char
  | [] => []
  | [a] => [b64c (a >>> 2), b64c ((a % 4) <<< 4), '=', '=']
  | [a, b] => [b64c (a >>> 2), b64c (((a % 4) <<< 4) + (b >>> 4)), b64c ((b % 16) <<< 2), '=']
  | a :: b :: c :: rest =>
    b64c (a >>> 2) :: b64c (((a % 4) <<< 4) + (b >>> 4)) ::
    b64c (((b % 16) <<< 2) + (c >>> 6)) :: b64c (c % 64) :: b64chunks rest

def base64Encode (bs : List Nat) : String := String.mk (b64chunks bs)

/-- `generate_signature` (function_app.py:735): base64 of the HMAC-SHA256 tag of the
UTF-8 bytes of the query string, keyed by the UTF-8 bytes of the API key. -/
def generate_signature (query_string api_key : String) : String :=
  base64Encode (hmacSha256 (utf8Bytes api_key) (utf8Bytes query_string))

/-! ## Data model -/

/-- JSON values (numbers modelled as integers; see the note at the top). -/
inductive Json where
  | null : Json
  | bool (b : Bool) : Json
  | num (n : Int) : Json
  | str (s : String) : Json
  | arr (l : List Json) : Json
  | obj (o : List (String × Json)) : Json

/-- The seven upstream resource endpoints routed by the app. -/
inductive Endpoint where
  | stockOnHand | customers | invoices | products | salesOrders | creditNotes | purchaseOrders
deriving DecidableEq

/-- The path component of each endpoint, as used in the routes and URLs. -/
def Endpoint.name : Endpoint → String
  | .stockOnHand => "StockOnHand"
  | .customers => "Customers"
  | .invoices => "Invoices"
  | .products => "Products"
  | .salesOrders => "SalesOrders"
  | .creditNotes => "CreditNotes"
  | .purchaseOrders => "PurchaseOrders"

/-- `base_url = f"https://api.unleashedsoftware.com/{endpoint}"`. -/
def baseUrl (e : Endpoint) : String := "https://api.unleashedsoftware.com/" ++ e.name

/-- The body of one parsed upstream JSON page: `page_data.get('Items', [])`,
`page_data.get('Pagination', {}).get('NumberOfPages', 1)` and
`...get('NumberOfItems', 0)` are modelled by the three optional fields
(a missing `Pagination` dict is both options `none`). -/
structure PageData where
  items : Option (List Json)
  numberOfPages : Option Int
  numberOfItems : Option Int

/-- One upstream HTTP response: status code, raw text, and the parsed JSON
(`none` models a `json.JSONDecodeError` from `response.json()`). -/
structure UpResp where
  status : Nat
  text : String
  json : Option PageData

/-- Outcome of one `requests.get`: either a `requests.exceptions.Timeout` or a response. -/
inductive Outcome where
  | timeout : Outcome
  | ok (r : UpResp) : Outcome

/-- The upstream API as an oracle: per page number, the outcome of fetching that
page and the duration of the request (twentieths of a second). -/
structure Upstream where
  fetch : Int → Outcome
  apiTime : Int → Int

/-- One logged `requests.get` call: the page number it asked for, the full URL,
and the `api-auth-id` / `api-auth-signature` headers sent with it. -/
structure Req where
  page : Int
  url : String
  authId : String
  signature : String
deriving DecidableEq

/-- Builds the request for query string `q` (the URL is literally
`f"{base_url}?{page_query}"` and the signature is `generate_signature(page_query, api_key)`). -/
def mkReq (e : Endpoint) (q : String) (api_key api_id : String) (page : Int) : Req :=
  { page := page, url := baseUrl e ++ "?" ++ q, authId := api_id,
    signature := generate_signature q api_key }

/-- The `Pagination` dictionary of the aggregate (full-fetch) result body. -/
structure AggPagination where
  numberOfItems : Nat
  pageSize : Nat
  pageNumber : Int
  numberOfPages : Int
  autoPaginated : Bool
  pagesRetrieved : Int
  totalPagesAvailable : Int
  truncated : Bool

/-- The full-fetch (`get_all_pages`) 200 result body. -/
structure AllPagesResult where
  items : List Json
  pagination : AggPagination

/-- The `ChunkInfo` dictionary of the chunked result body. -/
structure ChunkInfo where
  startPage : Int
  endPage : Int
  requestedChunkSize : Int
  pagesRetrieved : Nat
  itemsInChunk : Nat
  hasMorePages : Bool
  nextStartPage : Option Int
  totalPages : Int
  totalItemsAvailable : Int

/-- The `Pagination` dictionary of the chunked result body. -/
structure ChunkPagination where
  numberOfItems : Nat
  pageSize : Nat
  pageNumber : Int
  numberOfPages : Int
  autoPaginated : Bool
  chunkedMode : Bool

/-- The chunked (`get_chunked_pages`) 200 result body. -/
structure ChunkResult where
  items : List Json
  chunkInfo : ChunkInfo
  pagination : ChunkPagination

/-- A response body: plain text (error and passthrough paths) or one of the
two structured JSON result shapes. -/
inductive Body where
  | text (s : String) : Body
  | aggregate (r : AllPagesResult) : Body
  | chunk (r : ChunkResult) : Body

/-- An outbound `func.HttpResponse`. -/
structure HttpResponse where
  status : Nat
  body : Body

/-- A placeholder used to read fields out of an absent `Option HttpResponse`. -/
def noResp : HttpResponse := { status := 0, body := .text "" }

/-- The `Items` list of a response body (empty for text bodies). -/
def itemsOfResp (r : HttpResponse) : List Json :=
  match r.body with
  | .text _ => []
  | .aggregate a => a.items
  | .chunk c => c.items

/-! ## Shared query-string plumbing -/

/-- Lines 306-310 / 565-569: `if 'pageSize=' not in query_string: ...` append
`pageSize=1000` (or make it the whole query string). -/
def normalizePageSize (qs : String) : String :=
  if containsSub qs "pageSize=" then qs
  else if qs ≠ "" then qs ++ "&pageSize=1000" else "pageSize=1000"

/-- Lines 328-332 / 634-635 / 581: the per-page query,
`f"{query_string}&pageNumber={page_number}" if query_string else f"pageSize=1000&pageNumber={page_number}"`. -/
def pageQueryStr (qs : String) (page : Int) : String :=
  if qs ≠ "" then qs ++ "&pageNumber=" ++ intStr page
  else "pageSize=1000&pageNumber=" ++ intStr page

/-! ## `get_single_page` (lines 250-289) -/

/-- `get_single_page`: one unpaginated upstream call whose 200 body is passed
through verbatim.  The request carries no `pageNumber`, so the oracle is
consulted at the upstream default, page 1.  Returns the response and the log
of issued requests. -/
def get_single_page (u : Upstream) (e : Endpoint) (query_string api_id api_key : String) :
    HttpResponse × List Req :=
  let qs := if query_string = "" then "pageSize=1000"
            else if containsSub query_string "pageSize=" then query_string
            else query_string ++ "&pageSize=1000"
  let req := mkReq e qs api_key api_id 1
  match u.fetch 1 with
  | .timeout => ({ status := 500, body := .text "Single page error: timeout" }, [req])
  | .ok r =>
    if r.status = 200 then ({ status := 200, body := .text r.text }, [req])
    else ({ status := r.status,
            body := .text ("API call failed: " ++ intStr r.status ++ " - " ++ r.text) }, [req])

/-! ## `get_all_pages` (lines 291-483) -/

/-- Loop state of `get_all_pages`: accumulated items, the current page number,
`total_api_time`, the elapsed wall-clock time, and `total_pages` when the
variable has been assigned (Python `'total_pages' in locals()`). -/
structure GState where
  allItems : List Json
  pageNumber : Int
  totalApiTime : Int
  elapsed : Int
  totalPages : Option Int

/-- Result of the `get_all_pages` while-loop: an early `return` from inside the
loop, a `break` leaving state `s`, or fuel exhaustion; each carries the log of
requests issued from the current iteration onward. -/
inductive GOut where
  | early (resp : HttpResponse) (log : List Req) : GOut
  | done (s : GState) (log : List Req) : GOut
  | fuelOut (log : List Req) : GOut

/-- Prepends a request to the log of a loop result. -/
def GOut.addReq (r : Req) : GOut → GOut
  | .early resp log => .early resp (r :: log)
  | .done s log => .done s (r :: log)
  | .fuelOut log => .fuelOut (r :: log)

/-- The log of a loop result. -/
def GOut.log : GOut → List Req
  | .early _ log => log
  | .done _ log => log
  | .fuelOut log => log

/-- Whether the loop ran out of fuel. -/
def GOut.isOut : GOut → Bool
  | .fuelOut _ => true
  | _ => false

/-- The `while True` loop of `get_all_pages` (lines 318-441), one constructor
case per iteration.  Times are twentieths of a second: `FUNCTION_TIMEOUT`
570 s = 11400, the 60 s guard = 1200; the sleeps 0.1/0.2/0.5 s are 2/4/10 and
the `avg_api_time < 1.0` / `< 3.0` tests become `total_api_time < 20 * n` /
`< 60 * n` with `n = page_number ≥ 1`. -/
def gLoop (u : Upstream) (e : Endpoint) (qs api_key api_id : String) :
    Nat → GState → GOut
  | 0, _ => .fuelOut []
  | fuel + 1, s =>
    if 11400 - s.elapsed < 1200 then .done s []
    else
      let pq := pageQueryStr qs s.pageNumber
      let req := mkReq e pq api_key api_id s.pageNumber
      match u.fetch s.pageNumber with
      | .timeout =>
        if s.pageNumber = 1 then
          .early { status := 408,
                   body := .text "API request timeout on first page. The API may be slow or overloaded." }
                 [req]
        else .done s [req]
      | .ok r =>
        let s := { s with totalApiTime := s.totalApiTime + u.apiTime s.pageNumber,
                          elapsed := s.elapsed + u.apiTime s.pageNumber }
        if r.status ≠ 200 then
          if s.pageNumber = 1 then
            .early { status := r.status,
                     body := .text ("Page " ++ intStr s.pageNumber ++ " failed: " ++
                                    intStr r.status ++ " - " ++ r.text) } [req]
          else .done s [req]
        else
          match r.json with
          | none =>
            if s.pageNumber = 1 then
              .early { status := 500,
                       body := .text ("Invalid JSON response on page " ++ intStr s.pageNumber) } [req]
            else .done s [req]
          | some pd =>
            let items := pd.items.getD []
            if items.isEmpty then .done s [req]
            else
              let s := { s with allItems := s.allItems ++ items }
              let total_pages := pd.numberOfPages.getD 1
              let s := { s with totalPages := some total_pages }
              if total_pages ≤ s.pageNumber then .done s [req]
              else
                let delay : Int :=
                  if s.totalApiTime < 20 * s.pageNumber then 2
                  else if s.totalApiTime < 60 * s.pageNumber then 4
                  else 10
                (gLoop u e qs api_key api_id fuel
                  { s with pageNumber := s.pageNumber + 1, elapsed := s.elapsed + delay }).addReq req

/-- `get_all_pages`: auto-pagination with the comprehensive-metadata 200 result
(lines 443-478).  `none` in the first component means the fuel ran out before
the Python loop would have stopped (the log is still returned in full). -/
def get_all_pages (u : Upstream) (e : Endpoint) (query_string api_id api_key : String)
    (fuel : Nat) : Option HttpResponse × List Req :=
  let qs := normalizePageSize query_string
  match gLoop u e qs api_key api_id fuel
      { allItems := [], pageNumber := 1, totalApiTime := 0, elapsed := 0, totalPages := none } with
  | .early resp log => (some resp, log)
  | .fuelOut log => (none, log)
  | .done s log =>
    let was_truncated := match s.totalPages with
      | some tp => decide (s.pageNumber < tp)
      | none => false
    (some { status := 200,
            body := .aggregate
              { items := s.allItems,
                pagination :=
                  { numberOfItems := s.allItems.length,
                    pageSize := s.allItems.length,
                    pageNumber := 1,
                    numberOfPages := 1,
                    autoPaginated := true,
                    pagesRetrieved := s.pageNumber - 1,
                    totalPagesAvailable := s.totalPages.getD (s.pageNumber - 1),
                    truncated := was_truncated } } }, log)

/-! ## `get_chunked_pages` (lines 553-733) -/

/-- `[a, a+1, ..., b]` — Python `range(a, b + 1)` as a list. -/
def intRange (a b : Int) : List Int := (List.range (b + 1 - a).toNat).map (fun i => a + Int.ofNat i)

/-- Per-endpoint inter-page sleep of the chunk loop (lines 674-679), in
twentieths of a second: 0.2 s for StockOnHand/Products, 0.05 s for SalesOrders,
0.1 s otherwise. -/
def chunkDelay : Endpoint → Int
  | .stockOnHand => 4
  | .products => 4
  | .salesOrders => 1
  | _ => 2

/-- State of the chunk `for` loop: accumulated items, elapsed time, and the
last value taken by the Python loop variable `page_number` (`none` while the
variable is not yet in `locals()`). -/
structure CState where
  allItems : List Json
  elapsed : Int
  lastPage : Option Int

/-- The `for page_number in range(start_page, actual_end_page + 1)` loop of
`get_chunked_pages` (lines 623-679).  `CHUNK_TIMEOUT` 480 s = 9600 and the
gateway protection 420 s = 8400.  Returns the final state and the log of
requests issued by the loop. -/
def cLoop (u : Upstream) (e : Endpoint) (qs api_key api_id : String) :
    List Int → CState → CState × List Req
  | [], s => (s, [])
  | p :: ps, s =>
    let s := { s with lastPage := some p }
    if 9600 < s.elapsed then (s, [])
    else if 8400 < s.elapsed then (s, [])
    else
      let pq := pageQueryStr qs p
      let req := mkReq e pq api_key api_id p
      match u.fetch p with
      | .timeout => (s, [req])
      | .ok r =>
        let s := { s with elapsed := s.elapsed + u.apiTime p }
        if r.status ≠ 200 then (s, [req])
        else
          match r.json with
          | none => (s, [req])
          | some pd =>
            let items := pd.items.getD []
            if items.isEmpty then (s, [req])
            else
              let s := { s with allItems := s.allItems ++ items }
              let out := cLoop u e qs api_key api_id ps
                { s with elapsed := s.elapsed + chunkDelay e }
              (out.1, req :: out.2)

/-- `get_chunked_pages`: fetches page 1 for the dataset metadata, then the
requested page range, and assembles the `ChunkInfo` result.  When the range
`range(start_page, actual_end_page + 1)` is empty the Python `page_number`
variable is never assigned and line 682 raises a `NameError`, caught by the
outer handler as a 500 — modelled by the `lastPage = none` case. -/
def get_chunked_pages (u : Upstream) (e : Endpoint) (query_string api_id api_key : String)
    (start_page chunk_size : Int) : HttpResponse × List Req :=
  let qs := normalizePageSize query_string
  let end_page := start_page + chunk_size - 1
  let info_query := pageQueryStr qs 1
  let infoReq := mkReq e info_query api_key api_id 1
  match u.fetch 1 with
  | .timeout =>
    ({ status := 500, body := .text ("Chunked pagination error for " ++ e.name ++ ": timeout") },
     [infoReq])
  | .ok r =>
    if r.status ≠ 200 then
      ({ status := r.status,
         body := .text ("Failed to get dataset info: " ++ intStr r.status ++ " - " ++ r.text) },
       [infoReq])
    else
      match r.json with
      | none =>
        ({ status := 500, body := .text "Invalid JSON response" }, [infoReq])
      | some pd =>
        let total_pages := pd.numberOfPages.getD 1
        let total_available := pd.numberOfItems.getD 0
        let actual_end_page := min end_page total_pages
        let out := cLoop u e qs api_key api_id (intRange start_page actual_end_page)
          { allItems := [], elapsed := u.apiTime 1, lastPage := none }
        match out.1.lastPage with
        | none =>
          ({ status := 500,
             body := .text ("Chunked pagination error for " ++ e.name ++
                            ": name page_number is not defined") },
           infoReq :: out.2)
        | some p =>
          let pages_retrieved := (min p (actual_end_page + 1) - start_page).toNat
          let has_more_pages := decide (actual_end_page < total_pages)
          let next_start_page := if actual_end_page < total_pages
                                 then some (actual_end_page + 1) else none
          ({ status := 200,
             body := .chunk
               { items := out.1.allItems,
                 chunkInfo :=
                   { startPage := start_page,
                     endPage := min (p - 1) actual_end_page,
                     requestedChunkSize := chunk_size,
                     pagesRetrieved := pages_retrieved,
                     itemsInChunk := out.1.allItems.length,
                     hasMorePages := has_more_pages,
                     nextStartPage := next_start_page,
                     totalPages := total_pages,
                     totalItemsAvailable := total_available },
                 pagination :=
                   { numberOfItems := out.1.allItems.length,
                     pageSize := out.1.allItems.length,
                     pageNumber := 1,
                     numberOfPages := 1,
                     autoPaginated := true,
                     chunkedMode := true } } },
           infoReq :: out.2)

/-! ## `call_unleashed_api_chunked` (lines 485-551): parameter parsing -/

/-- ASCII whitespace stripped by Python `int(str)` (the unicode additions are
out of the modelled character range). -/
def isPySpace (c : Char) : Bool :=
  c = ' ' || c = '\t' || c = '\n' || c = '\x0d' || c = '\x0b' || c = '\x0c'

/-- Digit-run check for Python integer literals: nonempty digits with single
underscores allowed strictly between digits. -/
def pyDigitsTail : List Char → Bool
  | [] => true
  | '_' :: c :: rest => c.isDigit && pyDigitsTail rest
  | '_' :: [] => false
  | c :: rest => c.isDigit && pyDigitsTail rest

def pyDigitsOk : List Char → Bool
  | [] => false
  | c :: rest => c.isDigit && pyDigitsTail rest

/-- Numeric value of a digit run (underscores already removed). -/
def digitsVal (l : List Char) : Nat := l.foldl (fun a c => 10 * a + (c.toNat - 48)) 0

/-- Python `int(s)` on a decimal string: `some n` on success, `none` when a
`ValueError` is raised. -/
def pyIntParse (s : String) : Option Int :=
  let t := ((s.data.dropWhile isPySpace).reverse.dropWhile isPySpace).reverse
  match t with
  | '+' :: rest =>
    if pyDigitsOk rest then some (digitsVal (rest.filter (fun c => c ≠ '_'))) else none
  | '-' :: rest =>
    if pyDigitsOk rest then some (-(digitsVal (rest.filter (fun c => c ≠ '_')) : Int)) else none
  | rest =>
    if pyDigitsOk rest then some (digitsVal (rest.filter (fun c => c ≠ '_'))) else none

/-- `endpoint_defaults` (lines 515-523): default chunk sizes in pages. -/
def endpointDefaultChunk : Endpoint → Int
  | .salesOrders => 15
  | .stockOnHand => 3
  | .products => 2
  | .invoices => 3
  | .customers => 2
  | .creditNotes => 2
  | .purchaseOrders => 2

/-- Lines 504-509 (also 229-234): drop every `&`-separated parameter starting
with `code=` when the substring `code=` occurs anywhere in the query string. -/
def stripCodeParam (qs : String) : String :=
  if containsSub qs "code=" then
    joinParams ((paramsOf qs).filter (fun p => !(startsWithStr p "code=")))
  else qs

/-- Python `int(param.split('=')[1])` for the first parameter with the given
prefix; `none` when the `int()` call raises. -/
def parseCtl (qs : String) (pre : String) : Option Int :=
  match (paramsOf qs).find? (fun p => startsWithStr p pre) with
  | some p => pyIntParse (valueOf p)
  | none => none

/-- The `chunkSize` half of `call_unleashed_api_chunked`'s parsing (lines
537-543), then the call to `get_chunked_pages`. -/
def callChunkedWithStart (u : Upstream) (e : Endpoint) (qs api_id api_key : String)
    (start_page : Int) : HttpResponse × List Req :=
  if containsSub qs "chunkSize=" then
    match (paramsOf qs).find? (fun p => startsWithStr p "chunkSize=") with
    | some p =>
      match pyIntParse (valueOf p) with
      | none =>
        ({ status := 500,
           body := .text ("Error processing chunked " ++ e.name ++
                          " request: invalid literal for int()") }, [])
      | some cs =>
        let qs := joinParams ((paramsOf qs).filter (fun q => !(startsWithStr q "chunkSize=")))
        get_chunked_pages u e qs api_id api_key start_page cs
    | none => get_chunked_pages u e qs api_id api_key start_page (endpointDefaultChunk e)
  else get_chunked_pages u e qs api_id api_key start_page (endpointDefaultChunk e)

/-- `call_unleashed_api_chunked`: credential check, `code=` filtering,
`startPage` / `chunkSize` extraction (an unparseable value raises `ValueError`,
caught by the outer handler as a 500 before any upstream request), then
`get_chunked_pages`.  Empty credential strings model unset environment
variables (Python falsiness). -/
def call_unleashed_api_chunked (u : Upstream) (e : Endpoint) (rawQuery api_id api_key : String) :
    HttpResponse × List Req :=
  if api_id = "" || api_key = "" then
    ({ status := 400,
       body := .text "API credentials not configured. Please set UNLEASHED_API_ID and UNLEASHED_API_KEY environment variables." },
     [])
  else
    let qs := stripCodeParam rawQuery
    if containsSub qs "startPage=" then
      match (paramsOf qs).find? (fun p => startsWithStr p "startPage=") with
      | some p =>
        match pyIntParse (valueOf p) with
        | none =>
          ({ status := 500,
             body := .text ("Error processing chunked " ++ e.name ++
                            " request: invalid literal for int()") }, [])
        | some sp =>
          let qs := joinParams ((paramsOf qs).filter (fun q => !(startsWithStr q "startPage=")))
          callChunkedWithStart u e qs api_id api_key sp
      | none => callChunkedWithStart u e qs api_id api_key 1
    else callChunkedWithStart u e qs api_id api_key 1

/-! ## The Flattener -/

/-- A JSON record: an ordered mapping from string keys to JSON values. -/
def Record : Type := List (String × Json)

/-- First-occurrence lookup in a record (Python dict access). -/
def rlookup (k : String) : List (String × Json) → Option Json
  | [] => none
  | kv :: rest => if kv.1 = k then some kv.2 else rlookup k rest

/-- Modelled from the spec: the repository holds no Flattener code under src/
(the spec's §4.5 `flatten` describes functionality absent from
function_app.py), so the component is modelled from §4.5's words.  The header
of a record is every field except the line-collection field. -/
def headerOf (lineField : String) (r : Record) : Record :=
  r.filter (fun kv => kv.1 ≠ lineField)

/-- Modelled from the spec: the line collection of a record — the list held
under the line-collection field; an absent field, or a value that is not a
list, counts as a missing collection. -/
def linesOf (lineField : String) (r : Record) : List Json :=
  match rlookup lineField r with
  | some (.arr l) => l
  | _ => []

/-- Modelled from the spec: dictionary merge with the right-hand (line) fields
taking precedence on key collision — left keys in order with overridden
values, then the right-only keys. -/
def mergeRecords (h l : Record) : Record :=
  (h.map (fun kv => (kv.1, (rlookup kv.1 l).getD kv.2))) ++
    (l.filter (fun kv => (rlookup kv.1 h).isNone))

/-- Modelled from the spec: the well-formed (mapping) entries of the line
collection; §4.5 skips malformed, non-mapping entries. -/
def objLinesOf (lineField : String) (r : Record) : List Record :=
  (linesOf lineField r).filterMap (fun j => match j with | .obj o => some o | _ => none)

/-- Modelled from the spec: one output record per line (header merged with the
line, line precedence); a record whose line collection is empty, missing, or
contributes no mapping entries yields exactly the header row. -/
def explodeRecord (lineField : String) (r : Record) : List Record :=
  let ls := objLinesOf lineField r
  if ls.isEmpty then [headerOf lineField r]
  else ls.map (fun l => mergeRecords (headerOf lineField r) l)

/-- Modelled from the spec: §4.5 `flatten(records, lineFieldName)`. -/
def flatten (lineField : String) (records : List Record) : List Record :=
  records.flatMap (explodeRecord lineField)

/-- Boolean well-formedness of a line collection: every entry is a mapping. -/
def allObjB (ls : List Json) : Bool :=
  ls.all (fun j => match j with | .obj _ => true | _ => false)

/-! ## Boolean run predicates and derived quantities -/

/-- The fetch of page `p` was an HTTP 200 with parseable JSON. -/
def succJsonB (u : Upstream) (p : Int) : Bool :=
  match u.fetch p with
  | .ok r => r.status = 200 && r.json.isSome
  | .timeout => false

/-- The fetch of page `p` was a 200 with parseable JSON and a nonempty
`Items` list. -/
def succNonemptyB (u : Upstream) (p : Int) : Bool :=
  match u.fetch p with
  | .ok r =>
    r.status = 200 &&
      (match r.json with
       | some pd => !(pd.items.getD []).isEmpty
       | none => false)
  | .timeout => false

/-- The fetch of page `p` was a 200 with parseable JSON and an empty `Items`
list (a successfully fetched page with zero items). -/
def emptyFetchB (u : Upstream) (p : Int) : Bool :=
  match u.fetch p with
  | .ok r =>
    r.status = 200 &&
      (match r.json with
       | some pd => (pd.items.getD []).isEmpty
       | none => false)
  | .timeout => false

/-- The fetch of page `p` failed: request timeout, non-200 status, or
malformed JSON. -/
def failAtB (u : Upstream) (p : Int) : Bool :=
  match u.fetch p with
  | .timeout => true
  | .ok r => r.status ≠ 200 || r.json.isNone

/-- The `NumberOfPages` reported by page `p`'s metadata (with the code's
defaults applied; 1 when the page is not a successful JSON page). -/
def reportedPages (u : Upstream) (p : Int) : Int :=
  match u.fetch p with
  | .ok r => match r.json with
    | some pd => pd.numberOfPages.getD 1
    | none => 1
  | .timeout => 1

/-- The `Items` of page `p` (empty when the fetch was not a successful JSON page). -/
def pageItems (u : Upstream) (p : Int) : List Json :=
  match u.fetch p with
  | .ok r => match r.json with
    | some pd => pd.items.getD []
    | none => []
  | .timeout => []

/-- Concatenated `Items` of pages `a..b`. -/
def itemsConcat (u : Upstream) (a b : Int) : List Json :=
  (intRange a b).flatMap (pageItems u)

/-- The signature invariant for one logged request: re-deriving the query
string from the sent URL and re-signing it with the same key reproduces the
`api-auth-signature` header that was sent. -/
def sigOk (api_key : String) (r : Req) : Prop :=
  generate_signature (extractQuery r.url) api_key = r.signature

/-! ## Concrete upstream oracles used by witnesses and counterexamples -/

/-- The item carried by page `p` of the five-page mock dataset. -/
def pageItem (p : Int) : Json := .obj [("Page", .num p)]

/-- A five-page mock dataset: every page reports `NumberOfPages = 5`,
`NumberOfItems = 5`; pages 1-5 carry one item each and later pages are empty. -/
def u5 : Upstream :=
  { fetch := fun p =>
      .ok { status := 200, text := "ok",
            json := some { items := some (if 1 ≤ p ∧ p ≤ 5 then [pageItem p] else []),
                           numberOfPages := some 5, numberOfItems := some 5 } },
    apiTime := fun _ => 0 }

/-- Pages 1 and 2 succeed (one item each, ten pages claimed), page 3 and all
later pages return HTTP 500. -/
def uFail3 : Upstream :=
  { fetch := fun p =>
      if p ≤ 2 then
        .ok { status := 200, text := "ok",
              json := some { items := some [pageItem p],
                             numberOfPages := some 10, numberOfItems := some 10 } }
      else .ok { status := 500, text := "Internal Server Error", json := none },
    apiTime := fun _ => 0 }

/-- Page 1 succeeds (ten pages claimed), page 2 and all later pages return
HTTP 500. -/
def uFail2 : Upstream :=
  { fetch := fun p =>
      if p ≤ 1 then
        .ok { status := 200, text := "ok",
              json := some { items := some [pageItem p],
                             numberOfPages := some 10, numberOfItems := some 10 } }
      else .ok { status := 500, text := "Internal Server Error", json := none },
    apiTime := fun _ => 0 }

/-- Page 1 is fetched successfully but carries zero items while claiming five
pages; pages 3 and 4 succeed with one item each. -/
def uEmpty1 : Upstream :=
  { fetch := fun p =>
      .ok { status := 200, text := "ok",
            json := some { items := some (if 3 ≤ p ∧ p ≤ 4 then [pageItem p] else []),
                           numberOfPages := some 5, numberOfItems := some 5 } },
    apiTime := fun _ => 0 }

/-- Every page succeeds with one item and reports exactly two pages. -/
def uConst2 : Upstream :=
  { fetch := fun p =>
      .ok { status := 200, text := "ok",
            json := some { items := some [pageItem p],
                           numberOfPages := some 2, numberOfItems := some 2 } },
    apiTime := fun _ => 0 }

/-- Page 1 responds HTTP 503; every other page would succeed. -/
def uInfo503 : Upstream :=
  { fetch := fun p =>
      if p = 1 then .ok { status := 503, text := "Service Unavailable", json := none }
      else
        .ok { status := 200, text := "ok",
              json := some { items := some [pageItem p],
                             numberOfPages := some 5, numberOfItems := some 5 } },
    apiTime := fun _ => 0 }

/-- An upstream that is never reached (every request would time out). -/
def uNever : Upstream := { fetch := fun _ => .timeout, apiTime := fun _ => 0 }

/-! ## Helper lemmas: strings and the signature invariant -/

theorem mk_data (s : String) : String.mk s.data = s := rfl

theorem dropWhile_append_of_all {p : Char → Bool} :
    ∀ (l r : List Char), (∀ c ∈ l, p c) → List.dropWhile p (l ++ r) = List.dropWhile p r := by
  intro l r h
  induction l with
  | nil => rfl
  | cons c cs ih =>
    have hc : p c := h c (by simp)
    simp only [List.cons_append, List.dropWhile, hc]
    exact ih (fun d hd => h d (by simp [hd]))

theorem extractQuery_concat (b q : String) (hb : '?' ∉ b.data) :
    extractQuery (b ++ "?" ++ q) = q := by
  have hdata : (b ++ "?" ++ q).data = b.data ++ ('?' :: q.data) := by
    simp [String.data_append]
  rw [extractQuery, hdata]
  rw [dropWhile_append_of_all b.data ('?' :: q.data)
        (fun c hc => by simp only [decide_eq_true_eq]; rintro rfl; exact hb hc)]
  simp [List.dropWhile]

theorem qmark_not_in_baseUrl (e : Endpoint) : '?' ∉ (baseUrl e).data := by
  cases e <;> decide

theorem sigOk_mkReq (e : Endpoint) (q api_key api_id : String) (p : Int) :
    sigOk api_key (mkReq e q api_key api_id p) := by
  show generate_signature (extractQuery (baseUrl e ++ "?" ++ q)) api_key = _
  rw [extractQuery_concat _ _ (qmark_not_in_baseUrl e)]
  rfl

theorem GOut.log_addReq (r : Req) (o : GOut) : (GOut.addReq r o).log = r :: o.log := by
  cases o <;> rfl

theorem gLoop_log_sigOk (u : Upstream) (e : Endpoint) (qs api_key api_id : String) :
    ∀ (fuel : Nat) (s : GState),
      List.Forall (sigOk api_key) (gLoop u e qs api_key api_id fuel s).log := by
  intro fuel
  induction fuel with
  | zero => intro s; simp [gLoop, GOut.log, List.Forall]
  | succ n ih =>
    intro s
    rw [gLoop]
    split
    · simp [GOut.log, List.Forall]
    · split
      · try dsimp only
        split <;> simp [GOut.log, List.Forall, sigOk_mkReq]
      · try dsimp only
        split
        · split <;> simp [GOut.log, List.Forall, sigOk_mkReq]
        · split
          · split <;> simp [GOut.log, List.Forall, sigOk_mkReq]
          · try dsimp only
            split
            · simp [GOut.log, List.Forall, sigOk_mkReq]
            · try dsimp only
              split
              · simp [GOut.log, List.Forall, sigOk_mkReq]
              · rw [GOut.log_addReq]
                simp only [List.forall_cons]
                exact ⟨sigOk_mkReq _ _ _ _ _, ih _⟩


theorem cLoop_log_sigOk (u : Upstream) (e : Endpoint) (qs api_key api_id : String) :
    ∀ (ps : List Int) (s : CState),
      List.Forall (sigOk api_key) (cLoop u e qs api_key api_id ps s).2 := by
  intro ps
  induction ps with
  | nil => intro s; simp [cLoop, List.Forall]
  | cons p rest ih =>
    intro s
    rw [cLoop]
    try dsimp only
    split
    · simp [List.Forall]
    · split
      · simp [List.Forall]
      · split
        · simp [List.Forall, sigOk_mkReq]
        · try dsimp only
          split
          · simp [List.Forall, sigOk_mkReq]
          · split
            · simp [List.Forall, sigOk_mkReq]
            · try dsimp only
              split
              · simp [List.Forall, sigOk_mkReq]
              · simp only [List.forall_cons]
                exact ⟨sigOk_mkReq _ _ _ _ _, ih _⟩

theorem get_all_pages_log_sigOk (u : Upstream) (e : Endpoint) (qs api_id api_key : String)
    (fuel : Nat) :
    List.Forall (sigOk api_key) (get_all_pages u e qs api_id api_key fuel).2 := by
  rw [get_all_pages]
  have h := gLoop_log_sigOk u e (normalizePageSize qs) api_key api_id fuel
    { allItems := [], pageNumber := 1, totalApiTime := 0, elapsed := 0, totalPages := none }
  rcases ho : gLoop u e (normalizePageSize qs) api_key api_id fuel
      { allItems := [], pageNumber := 1, totalApiTime := 0, elapsed := 0, totalPages := none } with
    resp | st | log <;> rw [ho] at h <;> simpa [GOut.log] using h

theorem get_chunked_pages_log_sigOk (u : Upstream) (e : Endpoint) (qs api_id api_key : String)
    (sp cs : Int) :
    List.Forall (sigOk api_key) (get_chunked_pages u e qs api_id api_key sp cs).2 := by
  rw [get_chunked_pages]
  try dsimp only
  split
  · simp [List.Forall, sigOk_mkReq]
  · split
    · simp [List.Forall, sigOk_mkReq]
    · split
      · simp [List.Forall, sigOk_mkReq]
      · try dsimp only
        split <;>
          simp only [List.forall_cons] <;>
          exact ⟨sigOk_mkReq _ _ _ _ _, cLoop_log_sigOk _ _ _ _ _ _ _⟩

theorem get_single_page_log_sigOk (u : Upstream) (e : Endpoint) (qs api_id api_key : String) :
    List.Forall (sigOk api_key) (get_single_page u e qs api_id api_key).2 := by
  rw [get_single_page]
  try dsimp only
  split
  · simp [List.Forall, sigOk_mkReq]
  · split <;> simp [List.Forall, sigOk_mkReq]

theorem call_unleashed_api_chunked_log_sigOk (u : Upstream) (e : Endpoint)
    (rawQuery api_id api_key : String) :
    List.Forall (sigOk api_key) (call_unleashed_api_chunked u e rawQuery api_id api_key).2 := by
  have hc : ∀ (qs : String) (sp : Int),
      List.Forall (sigOk api_key) (callChunkedWithStart u e qs api_id api_key sp).2 := by
    intro qs sp
    rw [callChunkedWithStart]
    split
    · split
      · split
        · simp [List.Forall]
        · exact get_chunked_pages_log_sigOk _ _ _ _ _ _ _
      · exact get_chunked_pages_log_sigOk _ _ _ _ _ _ _
    · exact get_chunked_pages_log_sigOk _ _ _ _ _ _ _
  rw [call_unleashed_api_chunked]
  split
  · simp [List.Forall]
  · try dsimp only
    split
    · split
      · split
        · simp [List.Forall]
        · exact hc _ _
      · exact hc _ _
    · exact hc _ _


/-! ## Claim C1 -/

/-- C1: in single-page, full-fetch and chunked modes (and through the chunked
route handler), every request the proxy issues satisfies the signature
invariant: the query string re-derived from the sent URL, re-signed with the
same key, reproduces exactly the `api-auth-signature` header that was sent —
the signed string and the sent query string are byte-identical. -/
theorem c1_signed_equals_sent (u : Upstream) (e : Endpoint)
    (query_string rawQuery api_id api_key : String) (fuel : Nat) (sp cs : Int) :
    List.Forall (sigOk api_key) (get_single_page u e query_string api_id api_key).2 ∧
    List.Forall (sigOk api_key) (get_all_pages u e query_string api_id api_key fuel).2 ∧
    List.Forall (sigOk api_key) (get_chunked_pages u e query_string api_id api_key sp cs).2 ∧
    List.Forall (sigOk api_key) (call_unleashed_api_chunked u e rawQuery api_id api_key).2 :=
  ⟨get_single_page_log_sigOk u e query_string api_id api_key,
   get_all_pages_log_sigOk u e query_string api_id api_key fuel,
   get_chunked_pages_log_sigOk u e query_string api_id api_key sp cs,
   call_unleashed_api_chunked_log_sigOk u e rawQuery api_id api_key⟩

/-! ## Claim C8 -/

/-- C8: every chunked invocation issues the page-1 metadata request first
(it is the head of the request log, before any page of the requested range),
and when that page-1 request returns a non-200 status the whole invocation
fails with that same upstream status, zero items, after that single request —
regardless of whether the pages of the chunk range would have succeeded. -/
theorem c8_info_probe_first (u : Upstream) (e : Endpoint) (qs api_id api_key : String)
    (sp cs : Int) :
    (get_chunked_pages u e qs api_id api_key sp cs).2.head? =
      some (mkReq e (pageQueryStr (normalizePageSize qs) 1) api_key api_id 1) ∧
    (∀ r, u.fetch 1 = .ok r → r.status ≠ 200 →
      (get_chunked_pages u e qs api_id api_key sp cs).1.status = r.status ∧
      itemsOfResp (get_chunked_pages u e qs api_id api_key sp cs).1 = [] ∧
      (get_chunked_pages u e qs api_id api_key sp cs).2 =
        [mkReq e (pageQueryStr (normalizePageSize qs) 1) api_key api_id 1]) := by
  constructor
  · rw [get_chunked_pages]
    try dsimp only
    split
    · rfl
    · split
      · rfl
      · split
        · rfl
        · try dsimp only
          split <;> rfl
  · intro r hr hst
    rw [get_chunked_pages, hr]
    try dsimp only
    rw [if_pos hst]
    exact ⟨rfl, rfl, rfl⟩

/-! ## Claim C9 support -/

theorem gLoop_early_status (u : Upstream) (e : Endpoint) (qs api_key api_id : String) :
    ∀ (fuel : Nat) (s : GState) (resp : HttpResponse) (log : List Req),
      gLoop u e qs api_key api_id fuel s = .early resp log → resp.status ≠ 200 := by
  intro fuel
  induction fuel with
  | zero => intro s resp log h; simp [gLoop] at h
  | succ n ih =>
    intro s resp log h
    rw [gLoop] at h
    split at h
    · cases h
    · split at h
      · try dsimp only at h
        split at h
        · cases h; simp
        · cases h
      · try dsimp only at h
        split at h
        · rename_i hst
          split at h
          · cases h; exact hst
          · cases h
        · split at h
          · split at h
            · cases h; simp
            · cases h
          · try dsimp only at h
            split at h
            · cases h
            · try dsimp only at h
              split at h
              · cases h
              · rcases ho : gLoop u e qs api_key api_id n
                    { allItems := _, pageNumber := _, totalApiTime := _,
                      elapsed := _, totalPages := _ } with resp' | st' | log'
                all_goals rw [ho] at h; rw [GOut.addReq] at h
                · cases h; exact ih _ _ _ ho
                · cases h
                · cases h


/-! ## Claim C9 -/

/-- C9: every 200 response of the full-fetch or chunked aggregation presents
itself as a single page: `Pagination.PageNumber = 1`, `NumberOfPages = 1`, and
`NumberOfItems` equal to the length of the returned `Items` array, no matter
how many upstream pages were fetched. -/
theorem c9_aggregate_single_page (u : Upstream) (e : Endpoint) (qs api_id api_key : String)
    (fuel : Nat) (sp cs : Int) :
    (∀ resp, (get_all_pages u e qs api_id api_key fuel).1 = some resp → resp.status = 200 →
      ∃ a, resp.body = .aggregate a ∧ a.pagination.pageNumber = 1 ∧
        a.pagination.numberOfPages = 1 ∧ a.pagination.numberOfItems = a.items.length) ∧
    ((get_chunked_pages u e qs api_id api_key sp cs).1.status = 200 →
      ∃ c, (get_chunked_pages u e qs api_id api_key sp cs).1.body = .chunk c ∧
        c.pagination.pageNumber = 1 ∧ c.pagination.numberOfPages = 1 ∧
        c.pagination.numberOfItems = c.items.length) := by
  constructor
  · intro resp h hst
    rw [get_all_pages] at h
    rcases ho : gLoop u e (normalizePageSize qs) api_key api_id fuel
        { allItems := [], pageNumber := 1, totalApiTime := 0, elapsed := 0,
          totalPages := none } with resp' | st | log
    · rw [ho] at h
      simp only [Option.some.injEq] at h
      cases h
      exact absurd hst (gLoop_early_status u e (normalizePageSize qs) api_key api_id fuel _ _ _ ho)
    · rw [ho] at h
      try dsimp only at h
      simp only [Option.some.injEq] at h
      cases h
      exact ⟨_, rfl, rfl, rfl, rfl⟩
    · rw [ho] at h
      cases h
  · rw [get_chunked_pages]
    try dsimp only
    split
    · intro hst; simp at hst
    · split
      · intro hst
        rename_i hne
        exact absurd hst hne
      · split
        · intro hst; simp at hst
        · try dsimp only
          split
          · intro hst; simp at hst
          · intro _
            exact ⟨_, rfl, rfl, rfl, rfl⟩

/-! ## Claim C10 -/

/-- C10: a chunked request in which the control parameter the code actually
parses — `startPage`, or `chunkSize` at the stage after `startPage` handling —
carries a value that Python `int()` rejects returns status 500 with no
upstream request issued: the parse failure propagates to the generic exception
handler instead of falling back to the defaults.  The four clauses cover every
path to a failing parse: a bad `startPage`; a bad `chunkSize` after a
successfully parsed `startPage` parameter was removed from the query string; a
bad `chunkSize` when `startPage=` occurs only as a substring of some other
parameter (so no `startPage` value is parsed); and a bad `chunkSize` when
`startPage=` does not occur at all. -/
theorem c10_bad_ctl_param_500 (u : Upstream) (e : Endpoint) (qs api_id api_key : String)
    (hid : api_id ≠ "") (hkey : api_key ≠ "") :
    (∀ p, containsSub (stripCodeParam qs) "startPage=" = true →
      (paramsOf (stripCodeParam qs)).find? (fun q => startsWithStr q "startPage=") = some p →
      pyIntParse (valueOf p) = none →
      (call_unleashed_api_chunked u e qs api_id api_key).1.status = 500 ∧
      (call_unleashed_api_chunked u e qs api_id api_key).2 = []) ∧
    (∀ p sp q, containsSub (stripCodeParam qs) "startPage=" = true →
      (paramsOf (stripCodeParam qs)).find? (fun r => startsWithStr r "startPage=") = some p →
      pyIntParse (valueOf p) = some sp →
      containsSub (joinParams ((paramsOf (stripCodeParam qs)).filter
        (fun r => !(startsWithStr r "startPage=")))) "chunkSize=" = true →
      (paramsOf (joinParams ((paramsOf (stripCodeParam qs)).filter
          (fun r => !(startsWithStr r "startPage="))))).find?
        (fun r => startsWithStr r "chunkSize=") = some q →
      pyIntParse (valueOf q) = none →
      (call_unleashed_api_chunked u e qs api_id api_key).1.status = 500 ∧
      (call_unleashed_api_chunked u e qs api_id api_key).2 = []) ∧
    (∀ q, containsSub (stripCodeParam qs) "startPage=" = true →
      (paramsOf (stripCodeParam qs)).find? (fun r => startsWithStr r "startPage=") = none →
      containsSub (stripCodeParam qs) "chunkSize=" = true →
      (paramsOf (stripCodeParam qs)).find? (fun r => startsWithStr r "chunkSize=") = some q →
      pyIntParse (valueOf q) = none →
      (call_unleashed_api_chunked u e qs api_id api_key).1.status = 500 ∧
      (call_unleashed_api_chunked u e qs api_id api_key).2 = []) ∧
    (∀ p, containsSub (stripCodeParam qs) "startPage=" = false →
      containsSub (stripCodeParam qs) "chunkSize=" = true →
      (paramsOf (stripCodeParam qs)).find? (fun q => startsWithStr q "chunkSize=") = some p →
      pyIntParse (valueOf p) = none →
      (call_unleashed_api_chunked u e qs api_id api_key).1.status = 500 ∧
      (call_unleashed_api_chunked u e qs api_id api_key).2 = []) := by
  have hcred : (api_id = "" || api_key = "") = false := by
    simp only [Bool.or_eq_false_iff, decide_eq_false_iff_not]
    exact ⟨hid, hkey⟩
  refine ⟨?_, ?_, ?_, ?_⟩
  · intro p h1 h2 h3
    simp only [call_unleashed_api_chunked, hcred, h1, h2, h3, Bool.false_eq_true, if_false,
      if_true]
    exact ⟨trivial, trivial⟩
  · intro p sp q h1 h2 h3 h4 h5 h6
    simp only [call_unleashed_api_chunked, callChunkedWithStart, hcred, h1, h2, h3, h4, h5, h6,
      Bool.false_eq_true, if_false, if_true]
    exact ⟨trivial, trivial⟩
  · intro q h1 h2 h3 h4 h5
    simp only [call_unleashed_api_chunked, callChunkedWithStart, hcred, h1, h2, h3, h4, h5,
      Bool.false_eq_true, if_false, if_true]
    exact ⟨trivial, trivial⟩
  · intro p h1 h2 h3 h4
    simp only [call_unleashed_api_chunked, callChunkedWithStart, hcred, h1, h2, h3, h4,
      Bool.false_eq_true, if_false, if_true]
    exact ⟨trivial, trivial⟩


/-- C8 witness: against an upstream whose page 1 responds 503 (while pages 2+
would succeed), the chunked fetch of pages 1-2 fails with 503, zero items,
after only the single page-1 metadata request. -/
theorem c8_witness :
    (get_chunked_pages uInfo503 .customers "" "id" "key" 1 2).1.status = 503 ∧
    itemsOfResp (get_chunked_pages uInfo503 .customers "" "id" "key" 1 2).1 = [] ∧
    (get_chunked_pages uInfo503 .customers "" "id" "key" 1 2).2 =
      [mkReq .customers (pageQueryStr (normalizePageSize "") 1) "key" "id" 1] :=
  (c8_info_probe_first uInfo503 .customers "" "id" "key" 1 2).2
    { status := 503, text := "Service Unavailable", json := none } rfl (by decide)

/-- C9 witness: the successful full fetch and a successful chunked fetch over
the five-page mock dataset both report the single-page aggregate pagination. -/
theorem c9_witness :
    (∃ a, ((get_all_pages u5 .salesOrders "" "id" "key" 10).1.getD noResp).body = .aggregate a ∧
      a.pagination.pageNumber = 1 ∧ a.pagination.numberOfPages = 1 ∧
      a.pagination.numberOfItems = a.items.length) ∧
    (∃ c, (get_chunked_pages u5 .salesOrders "" "id" "key" 1 2).1.body = .chunk c ∧
      c.pagination.pageNumber = 1 ∧ c.pagination.numberOfPages = 1 ∧
      c.pagination.numberOfItems = c.items.length) :=
  ⟨(c9_aggregate_single_page u5 .salesOrders "" "id" "key" 10 1 2).1
      ((get_all_pages u5 .salesOrders "" "id" "key" 10).1.getD noResp) rfl rfl,
   (c9_aggregate_single_page u5 .salesOrders "" "id" "key" 10 1 2).2 rfl⟩

/-- C10 witness: `startPage=abc`, `startPage=2&chunkSize=abc` (parseable
`startPage`, bad `chunkSize`), `xstartPage=5&chunkSize=abc` (`startPage=` only
as a substring, bad `chunkSize`) and `chunkSize=2x` each return a 500 with no
upstream request issued. -/
theorem c10_witness :
    ((call_unleashed_api_chunked uNever .salesOrders "startPage=abc" "id" "key").1.status = 500 ∧
     (call_unleashed_api_chunked uNever .salesOrders "startPage=abc" "id" "key").2 = []) ∧
    ((call_unleashed_api_chunked uNever .salesOrders
        "startPage=2&chunkSize=abc" "id" "key").1.status = 500 ∧
     (call_unleashed_api_chunked uNever .salesOrders
        "startPage=2&chunkSize=abc" "id" "key").2 = []) ∧
    ((call_unleashed_api_chunked uNever .salesOrders
        "xstartPage=5&chunkSize=abc" "id" "key").1.status = 500 ∧
     (call_unleashed_api_chunked uNever .salesOrders
        "xstartPage=5&chunkSize=abc" "id" "key").2 = []) ∧
    ((call_unleashed_api_chunked uNever .salesOrders "chunkSize=2x" "id" "key").1.status = 500 ∧
     (call_unleashed_api_chunked uNever .salesOrders "chunkSize=2x" "id" "key").2 = []) :=
  ⟨(c10_bad_ctl_param_500 uNever .salesOrders "startPage=abc" "id" "key"
      (by decide) (by decide)).1 "startPage=abc" rfl rfl rfl,
   (c10_bad_ctl_param_500 uNever .salesOrders "startPage=2&chunkSize=abc" "id" "key"
      (by decide) (by decide)).2.1 "startPage=2" 2 "chunkSize=abc" rfl rfl rfl rfl rfl rfl,
   (c10_bad_ctl_param_500 uNever .salesOrders "xstartPage=5&chunkSize=abc" "id" "key"
      (by decide) (by decide)).2.2.1 "chunkSize=abc" rfl rfl rfl rfl rfl,
   (c10_bad_ctl_param_500 uNever .salesOrders "chunkSize=2x" "id" "key"
      (by decide) (by decide)).2.2.2 "chunkSize=2x" rfl rfl rfl rfl⟩


/-! ## Claim C7 support: record lookup and merge lemmas -/

theorem rlookup_append (k : String) (a b : List (String × Json)) :
    rlookup k (a ++ b) = (rlookup k a).or (rlookup k b) := by
  induction a with
  | nil => simp [rlookup]
  | cons kv rest ih =>
    by_cases h : kv.1 = k
    · simp [rlookup, h]
    · simp [rlookup, h, ih]

theorem rlookup_filter_keep (k : String) (p : String × Json → Bool)
    (hp : ∀ kv : String × Json, kv.1 = k → p kv = true) :
    ∀ l : List (String × Json), rlookup k (l.filter p) = rlookup k l := by
  intro l
  induction l with
  | nil => rfl
  | cons kv rest ih =>
    by_cases h : kv.1 = k
    · rw [List.filter_cons, hp kv h]
      simp [rlookup, h, ih]
    · rw [List.filter_cons]
      by_cases hpk : p kv = true
      · rw [if_pos hpk]
        simp [rlookup, h, ih]
      · rw [if_neg hpk]
        simp [rlookup, h, ih]

theorem rlookup_filter_drop (k : String) (p : String × Json → Bool)
    (hp : ∀ kv : String × Json, kv.1 = k → p kv = false) :
    ∀ l : List (String × Json), rlookup k (l.filter p) = none := by
  intro l
  induction l with
  | nil => rfl
  | cons kv rest ih =>
    rw [List.filter_cons]
    by_cases hpk : p kv = true
    · rw [if_pos hpk]
      have h : kv.1 ≠ k := by
        intro hk
        rw [hp kv hk] at hpk
        cases hpk
      simp [rlookup, h, ih]
    · rw [if_neg hpk]
      exact ih

theorem rlookup_map_override (k : String) (l : Record) :
    ∀ h : List (String × Json),
      rlookup k (h.map (fun kv => (kv.1, (rlookup kv.1 l).getD kv.2))) =
        (rlookup k h).map (fun v => (rlookup k l).getD v) := by
  intro h
  induction h with
  | nil => rfl
  | cons kv rest ih =>
    by_cases hk : kv.1 = k
    · simp [rlookup, hk]
    · simp [rlookup, hk, ih]

/-- Line fields take precedence on key collision: looking a key up in the
merged record finds the line's value first, then the header's. -/
theorem rlookup_mergeRecords (hrec l : Record) (k : String) :
    rlookup k (mergeRecords hrec l) = (rlookup k l).or (rlookup k hrec) := by
  rw [mergeRecords, rlookup_append, rlookup_map_override]
  cases hh : rlookup k hrec with
  | some hv =>
    have hdrop : rlookup k (l.filter (fun kv => (rlookup kv.1 hrec).isNone)) = none := by
      apply rlookup_filter_drop
      intro kv hk
      rw [hk, hh]
      rfl
    rw [hdrop]
    cases hl : rlookup k l <;> simp [Option.or]
  | none =>
    have hkeep : rlookup k (l.filter (fun kv => (rlookup kv.1 hrec).isNone)) = rlookup k l := by
      apply rlookup_filter_keep
      intro kv hk
      rw [hk, hh]
      rfl
    rw [hkeep]
    cases hl : rlookup k l <;> simp [Option.or]

theorem filterMap_obj_length (ls : List Json) (h : allObjB ls = true) :
    (ls.filterMap (fun j => match j with | .obj o => some o | _ => none)).length = ls.length := by
  induction ls with
  | nil => rfl
  | cons j rest ih =>
    rw [allObjB, List.all_cons, Bool.and_eq_true] at h
    obtain ⟨hj, hrest⟩ := h
    cases j <;> simp at hj
    simp only [List.filterMap_cons, List.length_cons]
    rw [ih hrest]

theorem objLines_length_of_allObj (lineField : String) (r : Record)
    (h : allObjB (linesOf lineField r) = true) :
    (objLinesOf lineField r).length = (linesOf lineField r).length :=
  filterMap_obj_length (linesOf lineField r) h


/-! ## Claim C7 -/

/-- C7: for well-formed input (every line-collection entry a mapping),
`flatten` yields, per record with `n ≥ 1` lines, exactly `n` rows — each the
record's non-line fields merged with one line's fields, line fields taking
precedence on key collision — and, per record with an empty or missing line
collection, exactly one row holding the header fields alone; hence
`len (flatten records) ≥ len records`.  (Modelled from the spec, §4.5.) -/
theorem c7_flatten_shape (lineField : String) (records : List Record)
    (hwf : ∀ r ∈ records, allObjB (linesOf lineField r) = true) :
    (∀ r ∈ records, 1 ≤ (linesOf lineField r).length →
      (explodeRecord lineField r).length = (linesOf lineField r).length ∧
      explodeRecord lineField r =
        (objLinesOf lineField r).map (fun l => mergeRecords (headerOf lineField r) l) ∧
      ∀ l ∈ objLinesOf lineField r, ∀ k,
        rlookup k (mergeRecords (headerOf lineField r) l) =
          (rlookup k l).or (rlookup k (headerOf lineField r))) ∧
    (∀ r ∈ records, (linesOf lineField r).length = 0 →
      explodeRecord lineField r = [headerOf lineField r]) ∧
    records.length ≤ (flatten lineField records).length := by
  refine ⟨?_, ?_, ?_⟩
  · intro r hr hn
    have hobj := objLines_length_of_allObj lineField r (hwf r hr)
    have hne : (objLinesOf lineField r).isEmpty = false := by
      cases hls : objLinesOf lineField r with
      | nil =>
        exfalso
        rw [hls] at hobj
        simp at hobj
        omega
      | cons a b => rfl
    refine ⟨?_, ?_, ?_⟩
    · rw [explodeRecord, hne]
      simp only [Bool.false_eq_true, if_false, List.length_map]
      exact hobj
    · rw [explodeRecord, hne]
      simp
    · intro l _ k
      exact rlookup_mergeRecords (headerOf lineField r) l k
  · intro r _ hn
    have hempty : (objLinesOf lineField r).isEmpty = true := by
      rw [objLinesOf]
      cases hls : linesOf lineField r with
      | nil => rfl
      | cons a b => rw [hls] at hn; simp at hn
    rw [explodeRecord, hempty]
    simp
  · have hone : ∀ r ∈ records, 1 ≤ (explodeRecord lineField r).length := by
      intro r hr
      rw [explodeRecord]
      cases hls : (objLinesOf lineField r).isEmpty with
      | true => simp
      | false =>
        simp only [Bool.false_eq_true, if_false, List.length_map]
        cases hob : objLinesOf lineField r with
        | nil => rw [hob] at hls; cases hls
        | cons a b => simp
    rw [flatten]
    clear hwf
    induction records with
    | nil => simp
    | cons r rest ih =>
      simp only [List.flatMap_cons, List.length_append, List.length_cons]
      have h1 := hone r (by simp)
      have h2 := ih (fun r hr => hone r (by simp [hr]))
      omega

/-- C7 witness: the spec's worked example — two records, the first with two
line entries, the second with an empty line collection — satisfies the
well-formedness hypothesis, and flattening yields three rows as described. -/
theorem c7_witness :
    (∀ r ∈ [[("id", Json.num 1),
             ("Lines", Json.arr [Json.obj [("a", Json.num 1)], Json.obj [("a", Json.num 2)]])],
            [("id", Json.num 2), ("Lines", Json.arr [])]],
       allObjB (linesOf "Lines" r) = true) ∧
    ((∀ r ∈ [[("id", Json.num 1),
             ("Lines", Json.arr [Json.obj [("a", Json.num 1)], Json.obj [("a", Json.num 2)]])],
            [("id", Json.num 2), ("Lines", Json.arr [])]],
        1 ≤ (linesOf "Lines" r).length →
        (explodeRecord "Lines" r).length = (linesOf "Lines" r).length ∧
        explodeRecord "Lines" r =
          (objLinesOf "Lines" r).map (fun l => mergeRecords (headerOf "Lines" r) l) ∧
        ∀ l ∈ objLinesOf "Lines" r, ∀ k,
          rlookup k (mergeRecords (headerOf "Lines" r) l) =
            (rlookup k l).or (rlookup k (headerOf "Lines" r))) ∧
      (∀ r ∈ [[("id", Json.num 1),
             ("Lines", Json.arr [Json.obj [("a", Json.num 1)], Json.obj [("a", Json.num 2)]])],
            [("id", Json.num 2), ("Lines", Json.arr [])]],
        (linesOf "Lines" r).length = 0 →
        explodeRecord "Lines" r = [headerOf "Lines" r]) ∧
      ([[("id", Json.num 1),
         ("Lines", Json.arr [Json.obj [("a", Json.num 1)], Json.obj [("a", Json.num 2)]])],
        [("id", Json.num 2), ("Lines", Json.arr [])]] : List Record).length ≤
        (flatten "Lines" [[("id", Json.num 1),
             ("Lines", Json.arr [Json.obj [("a", Json.num 1)], Json.obj [("a", Json.num 2)]])],
            [("id", Json.num 2), ("Lines", Json.arr [])]]).length) :=
  ⟨by intro r hr; fin_cases hr <;> rfl,
   c7_flatten_shape "Lines" _ (by intro r hr; fin_cases hr <;> rfl)⟩


/-! ## Claim C4 support: query-string key structure -/

theorem splitCh_ne_nil (sep : Char) : ∀ l : List Char, splitCh sep l ≠ [] := by
  intro l
  cases l with
  | nil => simp [splitCh]
  | cons c rest =>
    rw [splitCh]
    split
    · simp
    · split <;> simp

theorem splitCh_cons_sep (sep : Char) (l : List Char) :
    splitCh sep (sep :: l) = [] :: splitCh sep l := by
  rw [splitCh]
  exact if_pos rfl

theorem splitCh_cons_ne (sep c : Char) (l : List Char) (hc : ¬c = sep) :
    splitCh sep (c :: l) =
      match splitCh sep l with
      | [] => [[c]]
      | g :: gs => (c :: g) :: gs := by
  rw [splitCh]
  exact if_neg hc

theorem splitCh_append (sep : Char) : ∀ a b : List Char,
    splitCh sep (a ++ sep :: b) = splitCh sep a ++ splitCh sep b := by
  intro a b
  induction a with
  | nil => simp [splitCh, splitCh_cons_sep]
  | cons c rest ih =>
    by_cases hc : c = sep
    · subst hc
      rw [List.cons_append, splitCh_cons_sep, splitCh_cons_sep, ih]
      rfl
    · rw [List.cons_append, splitCh_cons_ne sep c _ hc, splitCh_cons_ne sep c _ hc, ih]
      cases hs : splitCh sep rest with
      | nil => exact absurd hs (splitCh_ne_nil sep rest)
      | cons g gs => simp

theorem splitCh_no_sep (sep : Char) : ∀ l : List Char, sep ∉ l → splitCh sep l = [l] := by
  intro l h
  induction l with
  | nil => rfl
  | cons c rest ih =>
    have hc : ¬c = sep := fun hcc => h (by simp [hcc])
    rw [splitCh, if_neg hc, ih (fun hm => h (by simp [hm]))]

theorem digitChar_ne_amp (n : Nat) (h : n < 10) : Nat.digitChar n ≠ '&' := by
  interval_cases n <;> decide

theorem toDigitsCore_chars : ∀ (fuel n : Nat) (ds : List Char) (c : Char),
    c ∈ Nat.toDigitsCore 10 fuel n ds → c ∈ ds ∨ ∃ k, k < 10 ∧ c = Nat.digitChar k := by
  intro fuel
  induction fuel with
  | zero => intro n ds c hc; exact Or.inl hc
  | succ f ih =>
    intro n ds c hc
    rw [Nat.toDigitsCore] at hc
    split at hc
    · rcases List.mem_cons.mp hc with h | h
      · exact Or.inr ⟨n % 10, Nat.mod_lt _ (by norm_num), h⟩
      · exact Or.inl h
    · rcases ih _ _ _ hc with h | h
      · rcases List.mem_cons.mp h with h2 | h2
        · exact Or.inr ⟨n % 10, Nat.mod_lt _ (by norm_num), h2⟩
        · exact Or.inl h2
      · exact Or.inr h

theorem amp_not_in_natRepr (n : Nat) : '&' ∉ (Nat.repr n).data := by
  intro hm
  have : '&' ∈ Nat.toDigitsCore 10 (n + 1) n [] := hm
  rcases toDigitsCore_chars (n + 1) n [] '&' this with h | ⟨k, hk, he⟩
  · cases h
  · exact digitChar_ne_amp k hk he.symm

theorem amp_not_in_intStr (n : Int) : '&' ∉ (intStr n).data := by
  cases n with
  | ofNat m => exact amp_not_in_natRepr m
  | negSucc m =>
    intro hm
    rw [intStr, Int.repr] at hm
    rw [String.data_append] at hm
    rcases List.mem_append.mp hm with h | h
    · exact (by decide : '&' ∉ ("-" : String).data) h
    · exact amp_not_in_natRepr _ h


theorem keysOfQuery_pageQueryStr (qs : String) (n : Int) (h : qs ≠ "") :
    keysOfQuery (pageQueryStr qs n) = keysOfQuery qs ++ ["pageNumber"] := by
  rw [pageQueryStr, if_pos h]
  have hno : '&' ∉ ("pageNumber=".data ++ (intStr n).data) := by
    intro hm
    rcases List.mem_append.mp hm with h1 | h1
    · exact (by decide : '&' ∉ ("pageNumber=" : String).data) h1
    · exact amp_not_in_intStr n h1
  have hdata : (qs ++ "&pageNumber=" ++ intStr n).data =
      qs.data ++ '&' :: ("pageNumber=".data ++ (intStr n).data) := by
    simp [String.data_append]
  rw [keysOfQuery, hdata, splitCh_append, splitCh_no_sep '&' _ hno, List.map_append]
  rfl

theorem keysOfQuery_normalizePageSize (qs : String) (h : qs ≠ "")
    (hps : containsSub qs "pageSize=" = false) :
    keysOfQuery (normalizePageSize qs) = keysOfQuery qs ++ ["pageSize"] := by
  rw [normalizePageSize, hps]
  simp only [Bool.false_eq_true, if_false, if_pos h]
  have hno : '&' ∉ ("pageSize=1000" : String).data := by decide
  have hdata : (qs ++ "&pageSize=1000").data = qs.data ++ '&' :: ("pageSize=1000" : String).data := by
    simp [String.data_append]
  rw [keysOfQuery, hdata, splitCh_append, splitCh_no_sep '&' _ hno, List.map_append]
  rfl

/-! ## Claim C4 -/

/-- C4 counterexample: for the client filters `b=2&a=1`, the query string of
the first request actually sent by the full fetch has keys
`[b, a, pageSize, pageNumber]` — the client's order with the injected keys
appended — which is not sorted lexicographically, contradicting the claimed
sorted canonical serialization. -/
theorem c4_counterexample :
    ((get_all_pages u5 .salesOrders "b=2&a=1" "id" "key" 6).2.map
        (fun r => keysOfQuery (extractQuery r.url))).head? =
      some ["b", "a", "pageSize", "pageNumber"] ∧
    chainLe ["b", "a", "pageSize", "pageNumber"] = false :=
  ⟨rfl, rfl⟩

/-- C4 (amended): the query string signed and sent preserves the client's
parameter order unsorted: the keys of the per-page query are exactly the keys
of the incoming query string with `pageNumber` appended at the end, and when
`pageSize` is absent the normalization step appends a `pageSize` key at the
end (no lexicographic sorting is performed anywhere). -/
theorem c4_amended (qs : String) (n : Int) (h : qs ≠ "") :
    keysOfQuery (pageQueryStr qs n) = keysOfQuery qs ++ ["pageNumber"] ∧
    (containsSub qs "pageSize=" = false →
      keysOfQuery (normalizePageSize qs) = keysOfQuery qs ++ ["pageSize"]) :=
  ⟨keysOfQuery_pageQueryStr qs n h, keysOfQuery_normalizePageSize qs h⟩

/-- C4 witness: the amended statement evaluated on the filters `b=2&a=1` and
page 7. -/
theorem c4_amended_witness :
    ("b=2&a=1" : String) ≠ "" ∧
    keysOfQuery (pageQueryStr "b=2&a=1" 7) = keysOfQuery "b=2&a=1" ++ ["pageNumber"] ∧
    keysOfQuery (normalizePageSize "b=2&a=1") = keysOfQuery "b=2&a=1" ++ ["pageSize"] :=
  ⟨by decide,
   (c4_amended "b=2&a=1" 7 (by decide)).1,
   (c4_amended "b=2&a=1" 7 (by decide)).2 (by decide)⟩


/-! ## Claim C5 support -/

theorem forall_dropLast_cons {P : Req → Prop} (a : Req) (l : List Req)
    (ha : P a) (hl : List.Forall P l.dropLast) : List.Forall P ((a :: l).dropLast) := by
  cases l with
  | nil => simp [List.Forall]
  | cons b m =>
    rw [List.dropLast_cons₂, List.forall_cons]
    exact ⟨ha, hl⟩

theorem gLoop_no_empty_before_last (u : Upstream) (e : Endpoint) (qs api_key api_id : String) :
    ∀ (fuel : Nat) (s : GState),
      List.Forall (fun r : Req => emptyFetchB u r.page = false)
        ((gLoop u e qs api_key api_id fuel s).log).dropLast := by
  intro fuel
  induction fuel with
  | zero => intro s; simp [gLoop, GOut.log, List.Forall]
  | succ n ih =>
    intro s
    rw [gLoop]
    split
    · simp [GOut.log, List.Forall]
    · split
      · try dsimp only
        split <;> simp [GOut.log, List.Forall]
      · try dsimp only
        split
        · split <;> simp [GOut.log, List.Forall]
        · split
          · split <;> simp [GOut.log, List.Forall]
          · try dsimp only
            split
            · simp [GOut.log, List.Forall]
            · try dsimp only
              split
              · simp [GOut.log, List.Forall]
              · rw [GOut.log_addReq]
                rename_i hdl x1 r0 hfetch hstat x2 pd0 hjson hitems htp
                apply forall_dropLast_cons
                · show emptyFetchB u s.pageNumber = false
                  rw [emptyFetchB, hfetch]
                  simp [hjson, hitems]
                · exact ih _

theorem cLoop_no_empty_before_last (u : Upstream) (e : Endpoint) (qs api_key api_id : String) :
    ∀ (ps : List Int) (s : CState),
      List.Forall (fun r : Req => emptyFetchB u r.page = false)
        ((cLoop u e qs api_key api_id ps s).2).dropLast := by
  intro ps
  induction ps with
  | nil => intro s; simp [cLoop, List.Forall]
  | cons p rest ih =>
    intro s
    rw [cLoop]
    try dsimp only
    split
    · simp [List.Forall]
    · split
      · simp [List.Forall]
      · split
        · simp [List.Forall]
        · try dsimp only
          split
          · simp [List.Forall]
          · split
            · simp [List.Forall]
            · try dsimp only
              split
              · simp [List.Forall]
              · try dsimp only
                rename_i h96 h84 x1 r0 hfetch hstat x2 pd0 hjson hitems
                apply forall_dropLast_cons
                · show emptyFetchB u p = false
                  rw [emptyFetchB, hfetch]
                  simp [hjson, hitems]
                · exact ih _

theorem get_all_pages_log_eq (u : Upstream) (e : Endpoint) (qs api_id api_key : String)
    (fuel : Nat) :
    (get_all_pages u e qs api_id api_key fuel).2 =
      (gLoop u e (normalizePageSize qs) api_key api_id fuel
        { allItems := [], pageNumber := 1, totalApiTime := 0, elapsed := 0,
          totalPages := none }).log := by
  rw [get_all_pages]
  rcases ho : gLoop u e (normalizePageSize qs) api_key api_id fuel
      { allItems := [], pageNumber := 1, totalApiTime := 0, elapsed := 0,
        totalPages := none } with resp | st | log <;> rfl


theorem get_chunked_pages_no_empty_tail (u : Upstream) (e : Endpoint)
    (qs api_id api_key : String) (sp cs : Int) :
    List.Forall (fun r : Req => emptyFetchB u r.page = false)
      (((get_chunked_pages u e qs api_id api_key sp cs).2.drop 1).dropLast) := by
  rw [get_chunked_pages]
  try dsimp only
  split
  · simp [List.Forall]
  · split
    · simp [List.Forall]
    · split
      · simp [List.Forall]
      · try dsimp only
        split <;>
          · simp only [List.drop_succ_cons, List.drop_zero]
            exact cLoop_no_empty_before_last u e _ api_key api_id _ _

/-! ## Claim C5 -/

/-- C5 counterexample: page 1 of `uEmpty1` is fetched successfully with zero
items (its metadata claiming five pages), yet the chunked run with
`startPage = 3` goes on to request pages 3 and 4 after it and returns their
items — the empty page-1 fetch (the chunked metadata probe) does not stop
pagination, contradicting the claim for every run and every page position. -/
theorem c5_counterexample :
    emptyFetchB uEmpty1 1 = true ∧
    ((get_chunked_pages uEmpty1 .salesOrders "" "id" "key" 3 2).2.map Req.page) = [1, 3, 4] ∧
    itemsOfResp (get_chunked_pages uEmpty1 .salesOrders "" "id" "key" 3 2).1 =
      [pageItem 3, pageItem 4] :=
  ⟨rfl, rfl, rfl⟩

/-- C5 (amended): within each page-fetch loop — the `get_all_pages` while-loop
and the chunked range loop — a successfully fetched page with zero items is
always the last request of that loop: every logged request except the final
one fetched a page that was not an empty success.  The chunked mode's initial
page-1 metadata probe (the head of its log) is exempt: its item count is never
inspected. -/
theorem c5_empty_page_stops_loop (u : Upstream) (e : Endpoint) (qs api_id api_key : String)
    (fuel : Nat) (sp cs : Int) :
    List.Forall (fun r : Req => emptyFetchB u r.page = false)
      ((get_all_pages u e qs api_id api_key fuel).2.dropLast) ∧
    List.Forall (fun r : Req => emptyFetchB u r.page = false)
      (((get_chunked_pages u e qs api_id api_key sp cs).2.drop 1).dropLast) := by
  constructor
  · rw [get_all_pages_log_eq]
    exact gLoop_no_empty_before_last u e _ api_key api_id fuel _
  · exact get_chunked_pages_no_empty_tail u e qs api_id api_key sp cs


/-! ## Claim C6 support -/

theorem intRange_length (a b : Int) : (intRange a b).length = (b + 1 - a).toNat := by
  rw [intRange, List.length_map, List.length_range]

theorem mem_intRange (a b p : Int) (h : p ∈ intRange a b) : a ≤ p ∧ p ≤ b := by
  simp only [intRange, Int.ofNat_eq_coe, List.mem_map, List.mem_range] at h
  obtain ⟨i, hi, rfl⟩ := h
  omega

theorem GOut.isOut_addReq (r : Req) (o : GOut) : (GOut.addReq r o).isOut = o.isOut := by
  cases o <;> rfl

theorem cLoop_log_bounds (u : Upstream) (e : Endpoint) (qs api_key api_id : String) :
    ∀ (ps : List Int) (s : CState),
      (cLoop u e qs api_key api_id ps s).2.length ≤ ps.length ∧
      List.Forall (fun r : Req => r.page ∈ ps) (cLoop u e qs api_key api_id ps s).2 := by
  intro ps
  induction ps with
  | nil => intro s; simp [cLoop, List.Forall]
  | cons p rest ih =>
    intro s
    rw [cLoop]
    try dsimp only
    split
    · simp [List.Forall]
    · split
      · simp [List.Forall]
      · split
        · refine ⟨by simp, ?_⟩
          simp [List.Forall, mkReq]
        · try dsimp only
          split
          · refine ⟨by simp, ?_⟩
            simp [List.Forall, mkReq]
          · split
            · refine ⟨by simp, ?_⟩
              simp [List.Forall, mkReq]
            · try dsimp only
              split
              · refine ⟨by simp, ?_⟩
                simp [List.Forall, mkReq]
              · constructor
                · simp only [List.length_cons]
                  exact Nat.succ_le_succ (ih _).1
                · simp only [List.forall_cons]
                  refine ⟨by simp [mkReq], ?_⟩
                  exact List.Forall.imp (fun r hr => List.mem_cons_of_mem _ hr) (ih _).2

theorem gLoop_consistent_bounds (u : Upstream) (e : Endpoint) (qs api_key api_id : String)
    (T : Int)
    (hcons : ∀ p r pd, u.fetch p = Outcome.ok r → r.status = 200 → r.json = some pd →
      pd.numberOfPages.getD 1 = T) :
    ∀ (fuel : Nat) (s : GState),
      1 ≤ s.pageNumber → (T - s.pageNumber).toNat < fuel →
      (gLoop u e qs api_key api_id fuel s).isOut = false ∧
      (gLoop u e qs api_key api_id fuel s).log.length ≤ ((T + 1 - s.pageNumber).toNat).max 1 ∧
      List.Forall (fun r : Req => s.pageNumber ≤ r.page ∧ r.page ≤ max s.pageNumber T)
        (gLoop u e qs api_key api_id fuel s).log := by
  intro fuel
  induction fuel with
  | zero => intro s h1 h2; omega
  | succ n ih =>
    intro s h1 h2
    rw [gLoop]
    split
    · refine ⟨rfl, by simp [GOut.log], by simp [GOut.log, List.Forall]⟩
    · split
      · try dsimp only
        split <;>
          exact ⟨rfl, by simp [GOut.log],
            by simp [GOut.log, List.Forall, mkReq]⟩
      · try dsimp only
        split
        · split <;>
            exact ⟨rfl, by simp [GOut.log],
              by simp [GOut.log, List.Forall, mkReq]⟩
        · split
          · split <;>
              exact ⟨rfl, by simp [GOut.log],
                by simp [GOut.log, List.Forall, mkReq]⟩
          · try dsimp only
            split
            · exact ⟨rfl, by simp [GOut.log],
                by simp [GOut.log, List.Forall, mkReq]⟩
            · try dsimp only
              split
              · exact ⟨rfl, by simp [GOut.log],
                  by simp [GOut.log, List.Forall, mkReq]⟩
              · rename_i hdl x1 r0 hfetch hstat x2 pd0 hjson hitems htp
                have hT : pd0.numberOfPages.getD 1 = T := by
                  apply hcons s.pageNumber r0 pd0 hfetch _ hjson
                  omega
                rw [hT] at htp
                have hpT : s.pageNumber < T := by omega
                rw [GOut.isOut_addReq, GOut.log_addReq]
                refine ⟨(ih _ (by dsimp only; omega) (by dsimp only; omega)).1, ?_, ?_⟩
                · simp only [List.length_cons]
                  refine le_trans
                    (Nat.succ_le_succ (ih _ (by dsimp only; omega) (by dsimp only; omega)).2.1) ?_
                  dsimp only
                  have e1 : ((T + 1 - (s.pageNumber + 1)).toNat).max 1 =
                      (T + 1 - (s.pageNumber + 1)).toNat := Nat.max_eq_left (by omega)
                  have e2 : ((T + 1 - s.pageNumber).toNat).max 1 =
                      (T + 1 - s.pageNumber).toNat := Nat.max_eq_left (by omega)
                  rw [e1, e2]
                  omega
                · simp only [List.forall_cons]
                  constructor
                  · simp [mkReq]
                  · refine List.Forall.imp ?_
                      (ih _ (by dsimp only; omega) (by dsimp only; omega)).2.2
                    intro r hr
                    dsimp only at hr
                    omega


theorem get_chunked_pages_fetch_bounds (u : Upstream) (e : Endpoint)
    (qs api_id api_key : String) (sp cs : Int) :
    (get_chunked_pages u e qs api_id api_key sp cs).2.length ≤ 1 + cs.toNat ∧
    (∀ r0 pd, u.fetch 1 = Outcome.ok r0 → r0.status = 200 → r0.json = some pd →
      List.Forall (fun rq : Req => rq.page = 1 ∨ rq.page ≤ pd.numberOfPages.getD 1)
        (get_chunked_pages u e qs api_id api_key sp cs).2) := by
  have key : ∀ (pd : PageData),
      (cLoop u e (normalizePageSize qs) api_key api_id
        (intRange sp (min (sp + cs - 1) (pd.numberOfPages.getD 1)))
        { allItems := [], elapsed := u.apiTime 1, lastPage := none }).2.length ≤ cs.toNat ∧
      List.Forall (fun rq : Req => rq.page = 1 ∨ rq.page ≤ pd.numberOfPages.getD 1)
        (cLoop u e (normalizePageSize qs) api_key api_id
          (intRange sp (min (sp + cs - 1) (pd.numberOfPages.getD 1)))
          { allItems := [], elapsed := u.apiTime 1, lastPage := none }).2 := by
    intro pd
    have hb := cLoop_log_bounds u e (normalizePageSize qs) api_key api_id
      (intRange sp (min (sp + cs - 1) (pd.numberOfPages.getD 1)))
      { allItems := [], elapsed := u.apiTime 1, lastPage := none }
    have hm : min (sp + cs - 1) (pd.numberOfPages.getD 1) ≤ sp + cs - 1 := min_le_left _ _
    constructor
    · have h1 := hb.1
      rw [intRange_length] at h1
      omega
    · refine List.Forall.imp ?_ hb.2
      intro rq hrq
      have h2 := mem_intRange _ _ _ hrq
      have hm2 : min (sp + cs - 1) (pd.numberOfPages.getD 1) ≤ pd.numberOfPages.getD 1 :=
        min_le_right _ _
      right
      omega
  constructor
  · rw [get_chunked_pages]
    try dsimp only
    split
    · simp
    · split
      · simp
      · split
        · simp
        · try dsimp only
          rename_i x1 r0 hfetch hstat x2 pd0 hjson
          split <;>
            · simp only [List.length_cons]
              have := (key pd0).1
              omega
  · intro r0 pd hf hst hj
    rw [get_chunked_pages, hf]
    try dsimp only
    rw [if_neg (by omega : ¬r0.status ≠ 200), hj]
    try dsimp only
    split <;>
      · simp only [List.forall_cons]
        exact ⟨Or.inl rfl, (key pd).2⟩

/-! ## Claim C6 -/

/-- C6 counterexample: over an upstream reporting exactly two pages, a chunked
invocation with `chunkSize = 2` issues three page fetches (the page-1 metadata
probe plus pages 1 and 2), exceeding the claimed bound
`max(pageLimit, totalPages) = max 2 2 = 2`. -/
theorem c6_counterexample :
    reportedPages uConst2 1 = 2 ∧
    ((get_chunked_pages uConst2 .salesOrders "" "id" "key" 1 2).2.map Req.page) = [1, 1, 2] ∧
    ¬((get_chunked_pages uConst2 .salesOrders "" "id" "key" 1 2).2.length ≤ max 2 2) :=
  ⟨rfl, rfl, by decide⟩

/-- C6 (amended): when every successful page of the upstream reports the same
`NumberOfPages = T`, the full fetch terminates within `max 1 T.toNat` page
fetches, all for page numbers at most `max 1 T`; a chunked invocation issues
at most `chunkSize` loop fetches plus the one page-1 metadata probe, and every
request beyond the probe is for a page number at most the `NumberOfPages`
learned from the probe — so once `totalPages` is known, no page beyond it is
ever requested. -/
theorem c6_fetch_bounds (u : Upstream) (e : Endpoint) (qs api_id api_key : String)
    (T : Int) (fuel : Nat) (sp cs : Int)
    (hcons : ∀ p r pd, u.fetch p = Outcome.ok r → r.status = 200 → r.json = some pd →
      pd.numberOfPages.getD 1 = T)
    (hfuel : T.toNat < fuel) :
    (get_all_pages u e qs api_id api_key fuel).1.isSome = true ∧
    (get_all_pages u e qs api_id api_key fuel).2.length ≤ (T.toNat).max 1 ∧
    List.Forall (fun r : Req => 1 ≤ r.page ∧ r.page ≤ max 1 T)
      (get_all_pages u e qs api_id api_key fuel).2 ∧
    (get_chunked_pages u e qs api_id api_key sp cs).2.length ≤ 1 + cs.toNat ∧
    (∀ r0 pd, u.fetch 1 = Outcome.ok r0 → r0.status = 200 → r0.json = some pd →
      List.Forall (fun rq : Req => rq.page = 1 ∨ rq.page ≤ pd.numberOfPages.getD 1)
        (get_chunked_pages u e qs api_id api_key sp cs).2) := by
  have hg := gLoop_consistent_bounds u e (normalizePageSize qs) api_key api_id T hcons fuel
    { allItems := [], pageNumber := 1, totalApiTime := 0, elapsed := 0, totalPages := none }
    (by simp) (by simp; omega)
  refine ⟨?_, ?_, ?_, (get_chunked_pages_fetch_bounds u e qs api_id api_key sp cs).1,
    (get_chunked_pages_fetch_bounds u e qs api_id api_key sp cs).2⟩
  · rw [get_all_pages]
    rcases ho : gLoop u e (normalizePageSize qs) api_key api_id fuel
        { allItems := [], pageNumber := 1, totalApiTime := 0, elapsed := 0,
          totalPages := none } with resp | st | log
    · rfl
    · rfl
    · rw [ho] at hg
      cases hg.1
  · rw [get_all_pages_log_eq]
    refine le_trans hg.2.1 ?_
    dsimp only
    have hTT : (T + 1 - 1 : Int) = T := by omega
    rw [hTT]
  · rw [get_all_pages_log_eq]
    refine List.Forall.imp ?_ hg.2.2
    intro r hr
    simp only at hr
    constructor
    · omega
    · have := hr.2
      rcases le_total (1 : Int) T with h | h
      · rw [max_eq_right h] at this ⊢
        exact this
      · rw [max_eq_left h]
        omega


/-- C6 witness: the bounds evaluated over the five-page dataset
(`T = 5`, fuel 7, chunk of 2 starting at page 1). -/
theorem c6_witness :
    (get_all_pages u5 .invoices "" "id" "key" 7).1.isSome = true ∧
    (get_all_pages u5 .invoices "" "id" "key" 7).2.length ≤ (Int.toNat 5).max 1 ∧
    List.Forall (fun r : Req => 1 ≤ r.page ∧ r.page ≤ max 1 5)
      (get_all_pages u5 .invoices "" "id" "key" 7).2 ∧
    (get_chunked_pages u5 .invoices "" "id" "key" 1 2).2.length ≤ 1 + Int.toNat 2 ∧
    (∀ r0 pd, u5.fetch 1 = Outcome.ok r0 → r0.status = 200 → r0.json = some pd →
      List.Forall (fun rq : Req => rq.page = 1 ∨ rq.page ≤ pd.numberOfPages.getD 1)
        (get_chunked_pages u5 .invoices "" "id" "key" 1 2).2) :=
  c6_fetch_bounds u5 .invoices "" "id" "key" 5 7 1 2
    (by
      intro p r pd h1 h2 h3
      simp only [u5] at h1
      cases h1
      rw [Option.some.injEq] at h3
      subst h3
      rfl)
    (by decide)


/-! ## Claim C3 support -/

theorem intRange_empty (a b : Int) (h : b < a) : intRange a b = [] := by
  rw [intRange]
  have h0 : (b + 1 - a).toNat = 0 := by omega
  rw [h0]
  rfl

theorem intRange_cons (a b : Int) (h : a ≤ b) : intRange a b = a :: intRange (a + 1) b := by
  rw [intRange, intRange]
  have h1 : (b + 1 - a).toNat = (b + 1 - (a + 1)).toNat + 1 := by omega
  rw [h1, List.range_succ_eq_map, List.map_cons, List.map_map]
  refine congrArg₂ List.cons (by simp) ?_
  apply List.map_congr_left
  intro i _
  simp [Function.comp, Int.ofNat_eq_coe]
  omega


theorem itemsConcat_empty (u : Upstream) (a b : Int) (h : b < a) : itemsConcat u a b = [] := by
  rw [itemsConcat, intRange_empty a b h]
  rfl

theorem itemsConcat_cons (u : Upstream) (a b : Int) (h : a ≤ b) :
    itemsConcat u a b = pageItems u a ++ itemsConcat u (a + 1) b := by
  rw [itemsConcat, intRange_cons a b h, List.flatMap_cons, itemsConcat]

theorem gLoop_reach (u : Upstream) (e : Endpoint) (qs api_key api_id : String)
    (hapi : ∀ p, u.apiTime p = 0) (k : Int) (hfail : failAtB u k = true) :
    ∀ (l : Nat) (fuel : Nat) (s : GState),
      s.pageNumber + l = k →
      s.totalApiTime = 0 →
      1 ≤ s.pageNumber →
      (s.pageNumber = 1 → 1 ≤ l) →
      s.elapsed + 2 * l ≤ 10200 →
      (∀ q, s.pageNumber ≤ q → q < k → succNonemptyB u q = true ∧ k ≤ reportedPages u q) →
      l + 1 ≤ fuel →
      ∃ s2, gLoop u e qs api_key api_id fuel s =
          GOut.done s2 ((intRange s.pageNumber k).map
            (fun q => mkReq e (pageQueryStr qs q) api_key api_id q)) ∧
        s2.allItems = s.allItems ++ itemsConcat u s.pageNumber (k - 1) ∧
        s2.pageNumber = k := by
  intro l
  induction l with
  | zero =>
    intro fuel s hk htot hp1 hone hel hsucc hfuel
    obtain ⟨f, rfl⟩ : ∃ f, fuel = f + 1 := ⟨fuel - 1, by omega⟩
    have hpk : s.pageNumber = k := by omega
    have hne1 : ¬s.pageNumber = 1 := fun h => by have := hone h; omega
    have hlog : (intRange s.pageNumber k).map
        (fun q => mkReq e (pageQueryStr qs q) api_key api_id q) =
        [mkReq e (pageQueryStr qs s.pageNumber) api_key api_id s.pageNumber] := by
      rw [hpk, intRange_cons k k le_rfl, intRange_empty (k + 1) k (by omega)]
      rfl
    have hcat : itemsConcat u s.pageNumber (k - 1) = [] :=
      itemsConcat_empty u _ _ (by omega)
    rw [gLoop, if_neg (by omega : ¬11400 - s.elapsed < 1200)]
    rcases hf : u.fetch s.pageNumber with _ | r
    · try dsimp only
      rw [if_neg hne1]
      exact ⟨s, by rw [hlog], by rw [hcat, List.append_nil], by omega⟩
    · have hfk : u.fetch k = Outcome.ok r := by rw [← hpk]; exact hf
      rw [failAtB, hfk] at hfail
      simp only [Bool.or_eq_true, decide_eq_true_eq, Option.isNone_iff_eq_none] at hfail
      try dsimp only
      rcases hfail with h200 | hjn
      · rw [if_pos h200]
        try dsimp only
        rw [if_neg hne1]
        refine ⟨_, by rw [hlog], ?_, ?_⟩
        · dsimp only
          rw [hcat, List.append_nil]
        · dsimp only
          omega
      · by_cases h200 : r.status ≠ 200
        · rw [if_pos h200]
          try dsimp only
          rw [if_neg hne1]
          refine ⟨_, by rw [hlog], ?_, ?_⟩
          · dsimp only
            rw [hcat, List.append_nil]
          · dsimp only
            omega
        · rw [if_neg h200, hjn]
          try dsimp only
          rw [if_neg hne1]
          refine ⟨_, by rw [hlog], ?_, ?_⟩
          · dsimp only
            rw [hcat, List.append_nil]
          · dsimp only
            omega
  | succ l ih =>
    intro fuel s hk htot hp1 hone hel hsucc hfuel
    obtain ⟨f, rfl⟩ : ∃ f, fuel = f + 1 := ⟨fuel - 1, by omega⟩
    have hplt : s.pageNumber < k := by omega
    obtain ⟨hsp, hrep⟩ := hsucc s.pageNumber le_rfl hplt
    rw [gLoop, if_neg (by omega : ¬11400 - s.elapsed < 1200)]
    rcases hf : u.fetch s.pageNumber with _ | r
    · rw [succNonemptyB, hf] at hsp
      cases hsp
    · rw [succNonemptyB, hf] at hsp
      simp only [Bool.and_eq_true, decide_eq_true_eq] at hsp
      obtain ⟨h200, hitems⟩ := hsp
      rcases hj : r.json with _ | pd
      · rw [hj] at hitems
        cases hitems
      · rw [hj] at hitems
        simp only [Bool.not_eq_true'] at hitems
        have hTgt : pd.numberOfPages.getD 1 = reportedPages u s.pageNumber := by
          simp [reportedPages, hf, hj]
        try dsimp only
        rw [if_neg (by simp [h200] : ¬r.status ≠ 200), hj]
        try dsimp only
        rw [if_neg (by simp [hitems] : ¬(pd.items.getD []).isEmpty = true)]
        try dsimp only
        rw [if_neg (show ¬pd.numberOfPages.getD 1 ≤ s.pageNumber by rw [hTgt]; omega)]
        rw [htot, hapi s.pageNumber]
        rw [if_pos (by omega : (0 : Int) + 0 < 20 * s.pageNumber)]
        obtain ⟨s2, hrec, hri, hrp⟩ := ih f
          { allItems := s.allItems ++ pd.items.getD [],
            pageNumber := s.pageNumber + 1,
            totalApiTime := 0 + 0,
            elapsed := s.elapsed + 0 + 2,
            totalPages := some (pd.numberOfPages.getD 1) }
          (by dsimp only; omega)
          (by dsimp only; omega)
          (by dsimp only; omega)
          (by dsimp only; intro hq; omega)
          (by dsimp only; omega)
          (by
            intro q hq hqk
            refine hsucc q ?_ hqk
            dsimp only at hq
            omega)
          (by omega)
        rw [hrec, GOut.addReq]
        have hpi : pageItems u s.pageNumber = pd.items.getD [] := by
          simp [pageItems, hf, hj]
        refine ⟨s2, ?_, ?_, by omega⟩
        · rw [intRange_cons s.pageNumber k (by omega), List.map_cons]
        · rw [hri]
          dsimp only
          rw [itemsConcat_cons u s.pageNumber (k - 1) (by omega), hpi, List.append_assoc]


theorem chunkDelay_bounds (e : Endpoint) : 0 ≤ chunkDelay e ∧ chunkDelay e ≤ 4 := by
  cases e <;> exact ⟨by decide, by decide⟩

theorem cLoop_reach (u : Upstream) (e : Endpoint) (qs api_key api_id : String)
    (hapi : ∀ p, u.apiTime p = 0) (k : Int) (hfail : failAtB u k = true) :
    ∀ (l1 l2 : List Int) (s : CState),
      (∀ q ∈ l1, succNonemptyB u q = true) →
      s.elapsed + 4 * l1.length ≤ 8400 →
      ∃ s2, cLoop u e qs api_key api_id (l1 ++ k :: l2) s =
          (s2, (l1 ++ [k]).map (fun q => mkReq e (pageQueryStr qs q) api_key api_id q)) ∧
        s2.allItems = s.allItems ++ l1.flatMap (pageItems u) ∧
        s2.lastPage = some k := by
  intro l1
  induction l1 with
  | nil =>
    intro l2 s hok hel
    simp only [List.length_nil, Nat.cast_zero, mul_zero, add_zero] at hel
    rw [List.nil_append, cLoop]
    try dsimp only
    rw [if_neg (by omega : ¬9600 < s.elapsed), if_neg (by omega : ¬8400 < s.elapsed)]
    rw [failAtB] at hfail
    rcases hf : u.fetch k with _ | r <;> rw [hf] at hfail
    · exact ⟨_, rfl, by simp, rfl⟩
    · simp only [Bool.or_eq_true, decide_eq_true_eq, Option.isNone_iff_eq_none] at hfail
      try dsimp only
      rcases hfail with h200 | hjn
      · rw [if_pos h200]
        exact ⟨_, rfl, by simp, rfl⟩
      · by_cases h200 : r.status ≠ 200
        · rw [if_pos h200]
          exact ⟨_, rfl, by simp, rfl⟩
        · rw [if_neg h200, hjn]
          exact ⟨_, rfl, by simp, rfl⟩
  | cons q l1 ih =>
    intro l2 s hok hel
    have hq := hok q (by simp)
    rw [List.cons_append, cLoop]
    try dsimp only
    rw [if_neg (show ¬(9600 : Int) < s.elapsed by
          simp only [List.length_cons] at hel; omega),
      if_neg (show ¬(8400 : Int) < s.elapsed by
          simp only [List.length_cons] at hel; omega)]
    rcases hf : u.fetch q with _ | r
    · rw [succNonemptyB, hf] at hq
      cases hq
    · rw [succNonemptyB, hf] at hq
      simp only [Bool.and_eq_true, decide_eq_true_eq] at hq
      obtain ⟨h200, hitems⟩ := hq
      rcases hj : r.json with _ | pd
      · rw [hj] at hitems
        cases hitems
      · rw [hj] at hitems
        simp only [Bool.not_eq_true'] at hitems
        try dsimp only
        rw [if_neg (by simp [h200] : ¬r.status ≠ 200), hj]
        try dsimp only
        rw [if_neg (by simp [hitems] : ¬(pd.items.getD []).isEmpty = true)]
        rw [hapi q]
        obtain ⟨hd0, hd4⟩ := chunkDelay_bounds e
        obtain ⟨s2, hrec, hri, hlast⟩ := ih l2
          { allItems := s.allItems ++ pd.items.getD [],
            elapsed := s.elapsed + 0 + chunkDelay e,
            lastPage := some q }
          (fun q2 hq2 => hok q2 (by simp [hq2]))
          (by
            dsimp only
            simp only [List.length_cons] at hel ⊢
            push_cast at hel ⊢
            omega)
        rw [hrec]
        have hpi : pageItems u q = pd.items.getD [] := by
          simp [pageItems, hf, hj]
        refine ⟨s2, rfl, ?_, hlast⟩
        rw [hri]
        dsimp only
        rw [List.flatMap_cons, hpi, List.append_assoc]

theorem intRange_split (a k b : Int) (h1 : a ≤ k) (h2 : k ≤ b) :
    intRange a b = intRange a (k - 1) ++ k :: intRange (k + 1) b := by
  have hgen : ∀ (n : Nat) (a : Int), a ≤ k → k ≤ b → (k - a).toNat = n →
      intRange a b = intRange a (k - 1) ++ k :: intRange (k + 1) b := by
    intro n
    induction n with
    | zero =>
      intro a ha hb hn
      have hak : a = k := by omega
      subst hak
      rw [intRange_empty a (a - 1) (by omega), List.nil_append,
        intRange_cons a b (by omega)]
    | succ m ih =>
      intro a ha hb hn
      rw [intRange_cons a b (by omega), intRange_cons a (k - 1) (by omega),
        ih (a + 1) (by omega) hb (by omega)]
      rfl
  exact hgen (k - a).toNat a h1 h2 rfl


/-! ## Claim C3 -/

/-- C3: a fetch failure (timeout, non-200, or malformed JSON) on the first
page request of an invocation yields a non-200 response with zero items (both
in the full fetch and in chunked mode, whose first request is the page-1
probe); the same failure on a later page, after the earlier pages of the
invocation succeeded, yields a 200 response carrying every item gathered so
far plus metadata recording where it stopped. -/
theorem c3_first_vs_later_failure (u : Upstream) (e : Endpoint) (qs api_id api_key : String) :
    (∀ fuel : Nat, 1 ≤ fuel → failAtB u 1 = true →
      ((get_all_pages u e qs api_id api_key fuel).1.getD noResp).status ≠ 200 ∧
      itemsOfResp ((get_all_pages u e qs api_id api_key fuel).1.getD noResp) = []) ∧
    (∀ (k : Int) (fuel : Nat),
      (∀ p, u.apiTime p = 0) → 2 ≤ k → k ≤ 5000 → k.toNat ≤ fuel →
      (∀ q, 1 ≤ q → q < k → succNonemptyB u q = true ∧ k ≤ reportedPages u q) →
      failAtB u k = true →
      ∃ a, (get_all_pages u e qs api_id api_key fuel).1 =
          some { status := 200, body := Body.aggregate a } ∧
        a.items = itemsConcat u 1 (k - 1) ∧
        a.pagination.pagesRetrieved = k - 1) ∧
    (∀ sp cs : Int, failAtB u 1 = true →
      (get_chunked_pages u e qs api_id api_key sp cs).1.status ≠ 200 ∧
      itemsOfResp (get_chunked_pages u e qs api_id api_key sp cs).1 = []) ∧
    (∀ (sp cs k : Int) (r0 : UpResp) (pd0 : PageData),
      (∀ p, u.apiTime p = 0) →
      u.fetch 1 = Outcome.ok r0 → r0.status = 200 → r0.json = some pd0 →
      sp ≤ k → k ≤ min (sp + cs - 1) (pd0.numberOfPages.getD 1) → k - sp ≤ 2000 →
      (∀ q, sp ≤ q → q < k → succNonemptyB u q = true) →
      failAtB u k = true →
      ∃ c, (get_chunked_pages u e qs api_id api_key sp cs).1 =
          { status := 200, body := Body.chunk c } ∧
        c.items = itemsConcat u sp (k - 1) ∧
        c.chunkInfo.endPage = k - 1) := by
  refine ⟨?_, ?_, ?_, ?_⟩
  · intro fuel hfu hfail
    obtain ⟨f, rfl⟩ : ∃ f, fuel = f + 1 := ⟨fuel - 1, by omega⟩
    rw [get_all_pages, gLoop]
    try dsimp only
    rw [if_neg (by norm_num : ¬(11400 : Int) - 0 < 1200)]
    rw [failAtB] at hfail
    rcases hf : u.fetch 1 with _ | r <;> rw [hf] at hfail
    · try dsimp only
      rw [if_pos rfl]
      exact ⟨show (408 : Nat) ≠ 200 by norm_num, rfl⟩
    · simp only [Bool.or_eq_true, decide_eq_true_eq, Option.isNone_iff_eq_none] at hfail
      try dsimp only
      rcases hfail with h200 | hjn
      · rw [if_pos h200]
        try dsimp only
        rw [if_pos rfl]
        exact ⟨h200, rfl⟩
      · by_cases h200 : r.status ≠ 200
        · rw [if_pos h200]
          try dsimp only
          rw [if_pos rfl]
          exact ⟨h200, rfl⟩
        · rw [if_neg h200, hjn]
          try dsimp only
          rw [if_pos rfl]
          exact ⟨show (500 : Nat) ≠ 200 by norm_num, rfl⟩
  · intro k fuel hapi hk2 hk5 hfuel hall hfail
    obtain ⟨s2, hdone, hitems, hpage⟩ :=
      gLoop_reach u e (normalizePageSize qs) api_key api_id hapi k hfail (k - 1).toNat fuel
        { allItems := [], pageNumber := 1, totalApiTime := 0, elapsed := 0, totalPages := none }
        (by dsimp only; omega)
        rfl
        (by norm_num)
        (by dsimp only; omega)
        (by dsimp only; omega)
        (fun q hq hqk => hall q hq hqk)
        (by omega)
    rw [get_all_pages, hdone]
    refine ⟨_, rfl, ?_, ?_⟩
    · rw [hitems, List.nil_append]
    · dsimp only
      omega
  · intro sp cs hfail
    rw [get_chunked_pages]
    rw [failAtB] at hfail
    rcases hf : u.fetch 1 with _ | r <;> rw [hf] at hfail
    · exact ⟨show (500 : Nat) ≠ 200 by norm_num, rfl⟩
    · simp only [Bool.or_eq_true, decide_eq_true_eq, Option.isNone_iff_eq_none] at hfail
      try dsimp only
      rcases hfail with h200 | hjn
      · rw [if_pos h200]
        exact ⟨h200, rfl⟩
      · by_cases h200 : r.status ≠ 200
        · rw [if_pos h200]
          exact ⟨h200, rfl⟩
        · rw [if_neg h200, hjn]
          exact ⟨show (500 : Nat) ≠ 200 by norm_num, rfl⟩
  · intro sp cs k r0 pd0 hapi hf1 h200 hj0 hsk hkend hd2000 hall hfail
    rw [get_chunked_pages, hf1]
    try dsimp only
    rw [if_neg (by omega : ¬r0.status ≠ 200), hj0]
    try dsimp only
    rw [intRange_split sp k (min (sp + cs - 1) (pd0.numberOfPages.getD 1)) hsk hkend]
    obtain ⟨s2, hloop, hitems, hlast⟩ :=
      cLoop_reach u e (normalizePageSize qs) api_key api_id hapi k hfail
        (intRange sp (k - 1)) (intRange (k + 1) (min (sp + cs - 1) (pd0.numberOfPages.getD 1)))
        { allItems := [], elapsed := u.apiTime 1, lastPage := none }
        (fun q hq => hall q (mem_intRange _ _ _ hq).1
          (by have := (mem_intRange _ _ _ hq).2; omega))
        (by
          dsimp only
          rw [hapi 1, intRange_length]
          omega)
    rw [hloop]
    try dsimp only
    rw [hlast]
    try dsimp only
    refine ⟨_, rfl, ?_, ?_⟩
    · dsimp only
      rw [hitems, List.nil_append]
      rfl
    · dsimp only
      rw [min_eq_left (by omega : k - 1 ≤ min (sp + cs - 1) (pd0.numberOfPages.getD 1))]


/-- C3 witness: a first-page timeout (`uNever`) is a hard non-200 with zero
items; an HTTP 500 on page 3 after pages 1-2 succeeded (`uFail3`) degrades to
a 200 carrying pages 1-2's items; the chunked probe failure (`uInfo503`) is a
hard non-200; and a chunked mid-range failure over `uFail3` returns a 200
chunk with the items gathered before the failing page. -/
theorem c3_witness :
    (((get_all_pages uNever .products "" "id" "key" 5).1.getD noResp).status ≠ 200 ∧
     itemsOfResp ((get_all_pages uNever .products "" "id" "key" 5).1.getD noResp) = []) ∧
    (∃ a, (get_all_pages uFail3 .products "" "id" "key" 5).1 =
        some { status := 200, body := Body.aggregate a } ∧
      a.items = itemsConcat uFail3 1 (3 - 1) ∧
      a.pagination.pagesRetrieved = 3 - 1) ∧
    ((get_chunked_pages uInfo503 .products "" "id" "key" 1 2).1.status ≠ 200 ∧
     itemsOfResp (get_chunked_pages uInfo503 .products "" "id" "key" 1 2).1 = []) ∧
    (∃ c, (get_chunked_pages uFail3 .products "" "id" "key" 1 5).1 =
        { status := 200, body := Body.chunk c } ∧
      c.items = itemsConcat uFail3 1 (3 - 1) ∧
      c.chunkInfo.endPage = 3 - 1) :=
  ⟨(c3_first_vs_later_failure uNever .products "" "id" "key").1 5 (by norm_num) rfl,
   (c3_first_vs_later_failure uFail3 .products "" "id" "key").2.1 3 5
     (fun _ => rfl) (by norm_num) (by norm_num) (by decide)
     (by
       intro q h1 h2
       interval_cases q <;> exact ⟨by decide, by decide⟩)
     (by decide),
   (c3_first_vs_later_failure uInfo503 .products "" "id" "key").2.2.1 1 2 (by decide),
   (c3_first_vs_later_failure uFail3 .products "" "id" "key").2.2.2 1 5 3
     { status := 200, text := "ok",
       json := some { items := some [pageItem 1],
                      numberOfPages := some 10, numberOfItems := some 10 } }
     { items := some [pageItem 1], numberOfPages := some 10, numberOfItems := some 10 }
     (fun _ => rfl) rfl rfl rfl (by norm_num) (by decide) (by norm_num)
     (by
       intro q h1 h2
       interval_cases q <;> decide)
     (by decide)⟩


/-! ## Claim C2 support -/

theorem cLoop_lastPage_some (u : Upstream) (e : Endpoint) (qs api_key api_id : String) :
    ∀ (ps : List Int) (s : CState), (s.lastPage.isSome = true ∨ ps ≠ []) →
      ((cLoop u e qs api_key api_id ps s).1.lastPage).isSome = true := by
  intro ps
  induction ps with
  | nil =>
    intro s h
    rcases h with h | h
    · exact h
    · exact absurd rfl h
  | cons p rest ih =>
    intro s _
    rw [cLoop]
    try dsimp only
    split
    · rfl
    · split
      · rfl
      · split
        · rfl
        · try dsimp only
          split
          · rfl
          · split
            · rfl
            · try dsimp only
              split
              · rfl
              · try dsimp only
                apply ih
                left
                rfl

/-! ## Claim C2 -/

/-- C2 counterexample: over `uFail2` (page 1 succeeds claiming ten pages, page
2 fails), the chunked call `startPage = 1, chunkSize = 3` successfully fetched
only page 1 (the last successful JSON fetch in its request log is page 1), yet
it reports `HasMorePages = true` with `NextStartPage = 4` — not one plus the
last page actually fetched, which would be 2. -/
theorem c2_counterexample :
    (((get_chunked_pages uFail2 .salesOrders "" "id" "key" 1 3).2.map Req.page).filter
        (fun p => succJsonB uFail2 p)).getLast? = some 1 ∧
    (∃ c, (get_chunked_pages uFail2 .salesOrders "" "id" "key" 1 3).1.body = Body.chunk c ∧
      c.chunkInfo.hasMorePages = true ∧ c.chunkInfo.nextStartPage = some 4) ∧
    (4 : Int) ≠ 1 + 1 :=
  ⟨rfl, ⟨_, rfl, rfl, rfl⟩, by norm_num⟩

/-- C2 (amended): whenever the page-1 probe succeeds and the requested range
is nonempty, the chunked response reports
`HasMorePages = (min(startPage + chunkSize - 1, totalPages) < totalPages)` and
`NextStartPage = min(startPage + chunkSize - 1, totalPages) + 1` when
`HasMorePages` is true and null otherwise — one past the planned end of the
chunk (which equals one plus the last page fetched when the loop completes
without an early break), regardless of where the loop actually stopped; and
the spec's three-call scenario holds over the five-page dataset: chunks 1-2,
3-4 and 5 with `NextStartPage` 3, 5 and null, whose concatenated items equal
the unchunked full fetch. -/
theorem c2_chunk_resumability :
    (∀ (u : Upstream) (e : Endpoint) (qs api_id api_key : String) (sp cs : Int)
      (r0 : UpResp) (pd0 : PageData),
      u.fetch 1 = Outcome.ok r0 → r0.status = 200 → r0.json = some pd0 →
      sp ≤ min (sp + cs - 1) (pd0.numberOfPages.getD 1) →
      ∃ c, (get_chunked_pages u e qs api_id api_key sp cs).1 =
          { status := 200, body := Body.chunk c } ∧
        c.chunkInfo.hasMorePages =
          decide (min (sp + cs - 1) (pd0.numberOfPages.getD 1) < pd0.numberOfPages.getD 1) ∧
        c.chunkInfo.nextStartPage =
          (if min (sp + cs - 1) (pd0.numberOfPages.getD 1) < pd0.numberOfPages.getD 1
           then some (min (sp + cs - 1) (pd0.numberOfPages.getD 1) + 1) else none)) ∧
    (∃ c1, (call_unleashed_api_chunked u5 .salesOrders "startPage=1&chunkSize=2" "id" "key").1.body =
        Body.chunk c1 ∧
      c1.chunkInfo.hasMorePages = true ∧ c1.chunkInfo.nextStartPage = some 3 ∧
      c1.items = [pageItem 1, pageItem 2]) ∧
    (∃ c2, (call_unleashed_api_chunked u5 .salesOrders "startPage=3&chunkSize=2" "id" "key").1.body =
        Body.chunk c2 ∧
      c2.chunkInfo.hasMorePages = true ∧ c2.chunkInfo.nextStartPage = some 5 ∧
      c2.items = [pageItem 3, pageItem 4]) ∧
    (∃ c3, (call_unleashed_api_chunked u5 .salesOrders "startPage=5" "id" "key").1.body =
        Body.chunk c3 ∧
      c3.chunkInfo.hasMorePages = false ∧ c3.chunkInfo.nextStartPage = none ∧
      c3.items = [pageItem 5]) ∧
    [pageItem 1, pageItem 2] ++ [pageItem 3, pageItem 4] ++ [pageItem 5] =
      itemsOfResp ((get_all_pages u5 .salesOrders "" "id" "key" 10).1.getD noResp) := by
  refine ⟨?_, ⟨_, rfl, rfl, rfl, rfl⟩, ⟨_, rfl, rfl, rfl, rfl⟩, ⟨_, rfl, rfl, rfl, rfl⟩, rfl⟩
  intro u e qs api_id api_key sp cs r0 pd0 hf h200 hj hne
  rw [get_chunked_pages, hf]
  try dsimp only
  rw [if_neg (by omega : ¬r0.status ≠ 200), hj]
  try dsimp only
  have hsome := cLoop_lastPage_some u e (normalizePageSize qs) api_key api_id
    (intRange sp (min (sp + cs - 1) (pd0.numberOfPages.getD 1)))
    { allItems := [], elapsed := u.apiTime 1, lastPage := none }
    (Or.inr (by rw [intRange_cons _ _ hne]; exact List.cons_ne_nil _ _))
  rcases hl : (cLoop u e (normalizePageSize qs) api_key api_id
      (intRange sp (min (sp + cs - 1) (pd0.numberOfPages.getD 1)))
      { allItems := [], elapsed := u.apiTime 1, lastPage := none }).1.lastPage with _ | p
  · rw [hl] at hsome
    cases hsome
  · exact ⟨_, rfl, rfl, rfl⟩

/-- C2 witness: the amended `NextStartPage` rule evaluated on the five-page
dataset with `startPage = 1, chunkSize = 2`. -/
theorem c2_amended_witness :
    ∃ c, (get_chunked_pages u5 .salesOrders "" "id" "key" 1 2).1 =
        { status := 200, body := Body.chunk c } ∧
      c.chunkInfo.hasMorePages = true ∧ c.chunkInfo.nextStartPage = some 3 := by
  obtain ⟨c, h1, h2, h3⟩ := c2_chunk_resumability.1 u5 .salesOrders "" "id" "key" 1 2
    { status := 200, text := "ok",
      json := some { items := some [pageItem 1],
                     numberOfPages := some 5, numberOfItems := some 5 } }
    { items := some [pageItem 1], numberOfPages := some 5, numberOfItems := some 5 }
    rfl rfl rfl (by decide)
  refine ⟨c, h1, ?_, ?_⟩
  · rw [h2]
    decide
  · rw [h3]
    decide

end UnleashedProxy
